import Mathlib

/-!
Verification development for the SQL tooling core of this repository:
the qualified-identifier parser, completion-context analyzer and wildcard
resolver of `src/util/sqlParser.ts`, the catalog query builders of
`src/metadata/queries.ts`, and the layered schema metadata cache
(`SchemaCache`).  The TypeScript sources are embedded shallowly: pure
functions become Lean functions, the cache's `Map` mutation becomes explicit
state passing over association lists, and the asynchronous metadata loader
becomes a function from query text to an optional tabular result (a failed or
cancelled query is the loader returning no result).
-/

/-! ## JavaScript value model

Query result cells are JavaScript values.  Numeric cells are modelled with
`Int` (every catalog column involved — precision, scale, max_length, flags —
is integral); `Number(string)` is modelled for integer-shaped strings and
yields no result (NaN) otherwise.  `undefined` is represented by `Option`
at each use site; `null` is the explicit `jnull`. -/

inductive JsValue where
  | jnull
  | jnum (n : Int)
  | jstr (s : String)
  | jbool (b : Bool)
deriving DecidableEq, Repr

/-- JavaScript whitespace as used by `trim`, `\s` and friends (the common
four characters; exotic unicode spaces are out of scope). -/
def jsIsWs (c : Char) : Bool :=
  c = ' ' ∨ c = '\t' ∨ c = '\n' ∨ c = '\r'

/-- Model of `String.prototype.trim` on a character list. -/
def jsTrimList (l : List Char) : List Char :=
  ((l.dropWhile jsIsWs).reverse.dropWhile jsIsWs).reverse

/-- Model of `String.prototype.trim`. -/
def jsTrim (s : String) : String :=
  String.mk (jsTrimList s.data)

/-- Model of `String.prototype.toLowerCase` (ASCII case mapping). -/
def toLowerStr (s : String) : String :=
  String.mk (s.data.map Char.toLower)

/-- Model of JavaScript `String(v)` on a defined value. -/
def jsToString : JsValue → String
  | .jnull => "null"
  | .jnum n => toString n
  | .jstr s => s
  | .jbool b => if b then "true" else "false"

/-- Model of JavaScript truthiness of a defined value. -/
def jsTruthy : JsValue → Bool
  | .jnull => false
  | .jnum n => n ≠ 0
  | .jstr s => s ≠ ""
  | .jbool b => b

/-- Model of the idiom `String(v ?? '')`: `null`/`undefined` become the
empty string, anything else is stringified. -/
def jsCoalesceStr : Option JsValue → String
  | none => ""
  | some .jnull => ""
  | some v => jsToString v

/-- Model of `Number(s)` restricted to integer-shaped strings: optional
sign and decimal digits after trimming; an empty trimmed string is `0`;
anything else is NaN (`none`).  (Fractional, hex and exponent forms do not
occur in the catalog columns involved.) -/
def jsStringToInt (s : String) : Option Int :=
  let t := jsTrimList s.data
  if t.isEmpty then some 0
  else
    let (sign, digits) :=
      match t with
      | '-' :: rest => ((-1 : Int), rest)
      | '+' :: rest => ((1 : Int), rest)
      | _ => ((1 : Int), t)
    if digits.isEmpty ∨ ¬ digits.all Char.isDigit then none
    else some (sign * (String.mk digits).toNat!)

/-- Embedding of `toNumber` (schemaCache.ts): `null`/`undefined` parse to
unknown, otherwise `Number(value)` with NaN mapped to unknown. -/
def toNumber : Option JsValue → Option Int
  | none => none
  | some .jnull => none
  | some (.jnum n) => some n
  | some (.jstr s) => jsStringToInt s
  | some (.jbool b) => some (if b then 1 else 0)

/-- Embedding of `toBoolean` (schemaCache.ts): a number is true iff nonzero,
a string iff it trims case-insensitively to "1" or "true", anything else by
JavaScript `Boolean` coercion. -/
def toBoolean : Option JsValue → Bool
  | some (.jnum n) => n ≠ 0
  | some (.jstr s) =>
      let normalized := toLowerStr (jsTrim s)
      normalized = "1" ∨ normalized = "true"
  | some (.jbool b) => b
  | some .jnull => false
  | none => false

/-! ## sqlParser.ts — qualified identifier parsing -/

/-- Embedding of `QualifiedIdentifierParts` (sqlParser.ts). -/
structure QualifiedIdentifierParts where
  database : Option String := none
  schema : Option String := none
  object : Option String := none
deriving DecidableEq, Repr

/-- Embedding of `stripBrackets`: `value.replace(/[\[\]]/g, '')`. -/
def stripBrackets (s : String) : String :=
  String.mk (s.data.filter (fun c => ¬ (c = '[' ∨ c = ']')))

/-- The loop body of `tokenizeQualifiedIdentifier`: walk the characters
tracking bracket depth (clamped at zero, as `Math.max(0, depth - 1)`), split
on a dot at depth zero, and push each trimmed nonempty accumulated chunk. -/
def tokenizeQIAux : List Char → List Char → Nat → List String → List String
  | [], current, _, parts =>
      if (jsTrimList current).isEmpty then parts
      else parts ++ [String.mk (jsTrimList current)]
  | c :: rest, current, depth, parts =>
      if c = '[' then tokenizeQIAux rest (current ++ [c]) (depth + 1) parts
      else if c = ']' then tokenizeQIAux rest (current ++ [c]) (depth - 1) parts
      else if c = '.' ∧ depth = 0 then
        tokenizeQIAux rest [] 0
          (if (jsTrimList current).isEmpty then parts
           else parts ++ [String.mk (jsTrimList current)])
      else tokenizeQIAux rest (current ++ [c]) depth parts

/-- Embedding of `tokenizeQualifiedIdentifier` (sqlParser.ts). -/
def tokenizeQualifiedIdentifier (identifier : String) : List String :=
  tokenizeQIAux identifier.data [] 0 []

/-- Embedding of `normalizeIdentifierPart` (sqlParser.ts): a falsy (absent or
empty) value resolves to absent, otherwise the trimmed value unless the trim
is empty. -/
def normalizeIdentifierPart : Option String → Option String
  | none => none
  | some v =>
      if v = "" then none
      else
        let trimmed := jsTrim v
        if trimmed.length ≠ 0 then some trimmed else none

/-- Body of `SqlParser.parseQualifiedIdentifier` after tokenization: pop the
object, schema and database parts from the right, strip brackets and
normalize each. -/
def parsePartsFromTokens (parts : List String) : QualifiedIdentifierParts :=
  if parts.isEmpty then {} else
  let object := stripBrackets (parts.getLast?.getD "")
  let parts1 := parts.dropLast
  let schema : Option String :=
    if ¬ parts1.isEmpty then some (stripBrackets (parts1.getLast?.getD "")) else none
  let parts2 := parts1.dropLast
  let database : Option String :=
    if ¬ parts2.isEmpty then some (stripBrackets (parts2.getLast?.getD "")) else none
  { database := normalizeIdentifierPart database
    schema := normalizeIdentifierPart schema
    object := normalizeIdentifierPart (some object) }

/-- Embedding of `SqlParser.parseQualifiedIdentifier` (sqlParser.ts). -/
def parseQualifiedIdentifier (identifier : String) : QualifiedIdentifierParts :=
  parsePartsFromTokens (tokenizeQualifiedIdentifier identifier)

example : parseQualifiedIdentifier "[a]]b]" = { object := some "ab" } := by decide
example : parseQualifiedIdentifier "x.a..b" = { schema := some "a", object := some "b", database := some "x" } := by decide
example : parseQualifiedIdentifier "d.s.o" =
    { database := some "d", schema := some "s", object := some "o" } := by decide
example : parseQualifiedIdentifier "[ ].b" = { object := some "b" } := by decide

/-! ## Claim-side reading of the qualified-identifier contract

The specification describes `parse` as mapping the dotted tokens
right-to-left — rightmost token to `object`, next to `schema`, next to
`database`, extra leading tokens dropped — with brackets stripped,
whitespace trimmed, and an all-whitespace part resolving to absent.  The
definitions below follow those words; the theorems relate them to the
embedded source. -/

/-- Claim-side resolution of one token: strip brackets, trim whitespace,
and resolve an all-whitespace part to absent rather than the empty
string. -/
def claimResolvePart (t : String) : Option String :=
  let v := jsTrim (stripBrackets t)
  if v = "" then none else some v

/-- Claim-side right-to-left assignment over the reversed token list: the
first element (rightmost token) is `object`, then `schema`, then
`database`; anything further is dropped. -/
def claimMapRev : List String → QualifiedIdentifierParts
  | [] => {}
  | [o] => { object := claimResolvePart o }
  | [o, sc] => { object := claimResolvePart o, schema := claimResolvePart sc }
  | o :: sc :: d :: _ =>
      { object := claimResolvePart o, schema := claimResolvePart sc,
        database := claimResolvePart d }

/-- Claim-side parser: tokenize as the source does, then assign
right-to-left. -/
def claimParseRightToLeft (s : String) : QualifiedIdentifierParts :=
  claimMapRev (tokenizeQualifiedIdentifier s).reverse

theorem strEmptyIff (s : String) : s = "" ↔ s.data = [] := by
  constructor
  · intro h; rw [h]
  · intro h; cases s; simp at h; rw [h]

theorem strLenZero (s : String) : s.length = 0 ↔ s = "" := by
  rw [strEmptyIff]
  cases s with
  | mk data => simp [String.length, List.length_eq_zero]

theorem normalizeIdentifierPart_none : normalizeIdentifierPart none = none := rfl

theorem normalizeIdentifierPart_eq_if (y : String) :
    normalizeIdentifierPart (some y) =
      (if jsTrim y = "" then none else some (jsTrim y)) := by
  unfold normalizeIdentifierPart
  by_cases hy : y = ""
  · subst hy
    have h0 : jsTrim "" = "" := rfl
    simp [h0]
  · simp only [hy, if_false]
    by_cases ht : jsTrim y = ""
    · have : (jsTrim y).length = 0 := (strLenZero _).mpr ht
      simp [ht, this]
    · have : (jsTrim y).length ≠ 0 := fun h => ht ((strLenZero _).mp h)
      simp [ht, this]

theorem normalizeIdentifierPart_strip (t : String) :
    normalizeIdentifierPart (some (stripBrackets t)) = claimResolvePart t := by
  rw [normalizeIdentifierPart_eq_if]
  rfl

theorem parsePartsFromTokens_eq (ps : List String) :
    parsePartsFromTokens ps = claimMapRev ps.reverse := by
  induction ps using List.reverseRecOn with
  | nil => rfl
  | append_singleton xs o _ =>
    induction xs using List.reverseRecOn with
    | nil =>
      simp [parsePartsFromTokens, claimMapRev, normalizeIdentifierPart_strip,
        normalizeIdentifierPart_none]
    | append_singleton ys s1 _ =>
      induction ys using List.reverseRecOn with
      | nil =>
        simp [parsePartsFromTokens, claimMapRev, List.getLast?_concat,
          List.dropLast_concat, normalizeIdentifierPart_strip,
          normalizeIdentifierPart_none]
      | append_singleton zs d _ =>
        simp [parsePartsFromTokens, claimMapRev, List.getLast?_concat,
          List.dropLast_concat, normalizeIdentifierPart_strip,
          normalizeIdentifierPart_none]

theorem claimResolvePart_ne_empty (t : String) : claimResolvePart t ≠ some "" := by
  unfold claimResolvePart
  by_cases h : jsTrim (stripBrackets t) = "" <;> simp [h]

theorem jsTrimList_subset (l : List Char) (c : Char) (h : c ∈ jsTrimList l) : c ∈ l := by
  unfold jsTrimList at h
  rw [List.mem_reverse] at h
  have h2 := (List.dropWhile_sublist _).mem h
  rw [List.mem_reverse] at h2
  exact (List.dropWhile_sublist _).mem h2

theorem stripBrackets_no_brackets (s : String) (c : Char)
    (h : c ∈ (stripBrackets s).data) : ¬ (c = '[' ∨ c = ']') := by
  unfold stripBrackets at h
  simp only [List.mem_filter] at h
  intro hc
  rcases h with ⟨_, hp⟩
  simp only [decide_eq_true_eq] at hp
  exact hp hc

theorem claimResolvePart_no_brackets (t v : String)
    (h : claimResolvePart t = some v) : '[' ∉ v.data ∧ ']' ∉ v.data := by
  unfold claimResolvePart at h
  by_cases he : jsTrim (stripBrackets t) = ""
  · simp [he] at h
  · simp only [he, if_false, Option.some.injEq] at h
    subst h
    constructor
    · intro hm
      exact stripBrackets_no_brackets t _ (jsTrimList_subset _ _ hm) (Or.inl rfl)
    · intro hm
      exact stripBrackets_no_brackets t _ (jsTrimList_subset _ _ hm) (Or.inr rfl)

theorem claimMapRev_no_empty (l : List String) :
    (claimMapRev l).object ≠ some "" ∧ (claimMapRev l).schema ≠ some "" ∧
      (claimMapRev l).database ≠ some "" := by
  rcases l with _ | ⟨o, _ | ⟨s1, _ | ⟨d, t⟩⟩⟩ <;>
    simp [claimMapRev, claimResolvePart_ne_empty]

theorem claimMapRev_no_brackets (l : List String) (v : String) :
    ((claimMapRev l).object = some v ∨ (claimMapRev l).schema = some v ∨
      (claimMapRev l).database = some v) → '[' ∉ v.data ∧ ']' ∉ v.data := by
  intro h
  rcases l with _ | ⟨o, _ | ⟨s1, _ | ⟨d, t⟩⟩⟩ <;> simp [claimMapRev] at h
  · exact claimResolvePart_no_brackets _ _ h
  · rcases h with h | h <;> exact claimResolvePart_no_brackets _ _ h
  · rcases h with h | h | h <;> exact claimResolvePart_no_brackets _ _ h

/-- C6: `parseQualifiedIdentifier` maps dotted tokens right-to-left (last
token to `object`, second-to-last to `schema`, third-to-last to `database`,
extra leading tokens silently dropped), strips bracket characters and trims
whitespace from each resolved part, resolves an all-whitespace part to
absent, never to the empty string, and always returns a parts object (it is
a total function).  Whitespace-only dotted segments are skipped by the
tokenizer, so "token" here means a trimmed nonempty dotted segment. -/
theorem C6_parse_maps_right_to_left :
    ∀ s : String,
      parseQualifiedIdentifier s = claimParseRightToLeft s ∧
      (parseQualifiedIdentifier s).object ≠ some "" ∧
      (parseQualifiedIdentifier s).schema ≠ some "" ∧
      (parseQualifiedIdentifier s).database ≠ some "" := by
  intro s
  have he : parseQualifiedIdentifier s = claimParseRightToLeft s :=
    parsePartsFromTokens_eq _
  have hn := claimMapRev_no_empty (tokenizeQualifiedIdentifier s).reverse
  rw [he]
  exact ⟨rfl, hn.1, hn.2.1, hn.2.2⟩

/-- C3 counterexample: parsing "[a]]b]" does not round-trip the claimed
bracket-escaped literal — the code strips every bracket character, yielding
part value "ab", not "a]b". -/
theorem C3_counterexample :
    (parseQualifiedIdentifier "[a]]b]").object = some "ab" ∧
      (parseQualifiedIdentifier "[a]]b]").object ≠ some "a]b" := by
  constructor <;> decide

/-- C3 (amended): `]]` inside a bracket-quoted segment is not decoded as an
escaped literal `]`; a closing bracket merely lowers the tokenizer's depth
(clamped at zero) and every bracket character is stripped from the resolved
parts, so parsing "[a]]b]" yields part value "ab" and no returned part ever
contains a bracket character. -/
theorem C3_brackets_stripped_not_escaped :
    parseQualifiedIdentifier "[a]]b]" = { object := some "ab" } ∧
    (∀ s v, (parseQualifiedIdentifier s).object = some v →
      '[' ∉ v.data ∧ ']' ∉ v.data) ∧
    (∀ s v, (parseQualifiedIdentifier s).schema = some v →
      '[' ∉ v.data ∧ ']' ∉ v.data) ∧
    (∀ s v, (parseQualifiedIdentifier s).database = some v →
      '[' ∉ v.data ∧ ']' ∉ v.data) := by
  refine ⟨by decide, ?_, ?_, ?_⟩
  · intro s v h
    unfold parseQualifiedIdentifier at h
    rw [parsePartsFromTokens_eq] at h
    exact claimMapRev_no_brackets _ v (Or.inl h)
  · intro s v h
    unfold parseQualifiedIdentifier at h
    rw [parsePartsFromTokens_eq] at h
    exact claimMapRev_no_brackets _ v (Or.inr (Or.inl h))
  · intro s v h
    unfold parseQualifiedIdentifier at h
    rw [parsePartsFromTokens_eq] at h
    exact claimMapRev_no_brackets _ v (Or.inr (Or.inr h))

/-! ## sqlParser.ts — completion context analysis

`analyzeCompletionContext` operates on the line text strictly before the
cursor (`linePrefix`); the embedding takes that string directly.  The
JavaScript regexes are modelled by explicit scanners: a regex anchored at
`$` with a trailing `[\w\[\]\.\s]*` group matches at the leftmost position
whose word boundary, keyword, following whitespace and remaining characters
all fit, which the scanners reproduce position by position. -/

/-- JavaScript `\w`: ASCII letters, digits and underscore. -/
def charIsWordJs (c : Char) : Bool := c.isAlphanum ∨ c = '_'

/-- The character class `[\w\[\]\.\s]` of the routine-context regexes. -/
def execClassChar (c : Char) : Bool :=
  charIsWordJs c ∨ c = '[' ∨ c = ']' ∨ c = '.' ∨ jsIsWs c

/-- Case-insensitive keyword match: `kw` (lowercase) against the head of the
text; returns the rest on success. -/
def matchCI : List Char → List Char → Option (List Char)
  | [], cs => some cs
  | _, [] => none
  | k :: ks, c :: cs => if c.toLower = k then matchCI ks cs else none

/-- After a matched keyword: `\s+([\w\[\]\.\s]*)$` — at least one whitespace
character, everything to the end inside the class; the group starts after
the greedy whitespace run. -/
def execContinuation (rest : List Char) : Option String :=
  match rest with
  | [] => none
  | c :: _ =>
      if jsIsWs c ∧ rest.all execClassChar then
        some (String.mk (rest.dropWhile jsIsWs))
      else none

/-- One position of `/\b(exec(?:ute)?|call)\s+([\w\[\]\.\s]*)$/i`: greedy
alternation tries `execute`, then `exec`, then `call`. -/
def execTryAt (cs : List Char) : Option String :=
  (match matchCI "execute".data cs with
   | some rest => execContinuation rest
   | none => none) <|>
  (match matchCI "exec".data cs with
   | some rest => execContinuation rest
   | none => none) <|>
  (match matchCI "call".data cs with
   | some rest => execContinuation rest
   | none => none)

/-- Leftmost-position regex scan: try each position whose preceding
character satisfies the word boundary `\b` (the keywords all start with a
word character). -/
def regexScanAux {α : Type} (tryAt : List Char → Option α) :
    Option Char → List Char → Option α
  | _, [] => none
  | prev, c :: rest =>
    let ok : Bool := match prev with | none => true | some p => ¬ charIsWordJs p
    match (if ok then tryAt (c :: rest) else none) with
    | some r => some r
    | none => regexScanAux tryAt (some c) rest

/-- The `exec|execute|call` routine-context regex of `detectRoutineContext`,
returning the captured partial-name group. -/
def execRegexSearch (linePrefix : String) : Option String :=
  regexScanAux execTryAt none linePrefix.data

/-- Model of `\s+`: at least one whitespace character, consumed greedily. -/
def wsPlus (cs : List Char) : Option (List Char) :=
  match cs with
  | c :: _ => if jsIsWs c then some (cs.dropWhile jsIsWs) else none
  | [] => none

/-- After a DDL verb: `\s+(procedure|proc|function|view)\s+([\w\[\]\.\s]*)$`;
returns the type keyword (lowercased, as `determineRoutineCategory` reads
it) and the captured partial-name group. -/
def ddlAfterVerb (rest : List Char) : Option (String × String) :=
  match wsPlus rest with
  | none => none
  | some rest1 =>
    (match matchCI "procedure".data rest1 with
     | some r2 => (execContinuation r2).map (fun tok => ("procedure", tok))
     | none => none) <|>
    (match matchCI "proc".data rest1 with
     | some r2 => (execContinuation r2).map (fun tok => ("proc", tok))
     | none => none) <|>
    (match matchCI "function".data rest1 with
     | some r2 => (execContinuation r2).map (fun tok => ("function", tok))
     | none => none) <|>
    (match matchCI "view".data rest1 with
     | some r2 => (execContinuation r2).map (fun tok => ("view", tok))
     | none => none)

/-- One position of the DDL regex
`/\b(?:create\s+or\s+alter|create|alter|drop)\s+(procedure|proc|function|view)\s+([\w\[\]\.\s]*)$/i`. -/
def ddlTryAt (cs : List Char) : Option (String × String) :=
  (do
    let r1 ← matchCI "create".data cs
    let r2 ← wsPlus r1
    let r3 ← matchCI "or".data r2
    let r4 ← wsPlus r3
    let r5 ← matchCI "alter".data r4
    ddlAfterVerb r5) <|>
  (do ddlAfterVerb (← matchCI "create".data cs)) <|>
  (do ddlAfterVerb (← matchCI "alter".data cs)) <|>
  (do ddlAfterVerb (← matchCI "drop".data cs))

/-- The DDL routine-context regex of `detectRoutineContext`. -/
def ddlRegexSearch (linePrefix : String) : Option (String × String) :=
  regexScanAux ddlTryAt none linePrefix.data

/-- Embedding of `CompletionContextType` (sqlParser.ts). -/
inductive CompletionContextType where
  | schema | table | column | routine | keyword
deriving DecidableEq, Repr

/-- Embedding of the routine category union type (sqlParser.ts). -/
inductive RoutineCategoryKind where
  | procedure | function | view | any
deriving DecidableEq, Repr

/-- Embedding of `CompletionContextResult` (sqlParser.ts); the source fields
`prefix` and `alias` are Lean keywords and are named `prefixText` and
`aliasName` here. -/
structure CompletionContextResult where
  type : CompletionContextType
  prefixText : String
  owner : Option String := none
  aliasName : Option String := none
  routineCategory : Option RoutineCategoryKind := none
deriving DecidableEq, Repr

/-- State-machine model of `withoutBrackets.replace(/\s*\.\s*/g, '.')`:
whitespace adjacent to a dot is deleted together with the surrounding
whitespace of the match; other characters pass through.  The first state is
"currently consuming the whitespace that follows a dot"; the accumulator is
the pending whitespace run not yet known to precede a dot. -/
def collapseDotWsAux : Bool → List Char → List Char → List Char
  | true, _, [] => []
  | false, pend, [] => pend.reverse
  | true, pend, c :: rest =>
      if jsIsWs c then collapseDotWsAux true pend rest
      else if c = '.' then '.' :: collapseDotWsAux true [] rest
      else c :: collapseDotWsAux false [] rest
  | false, pend, c :: rest =>
      if jsIsWs c then collapseDotWsAux false (c :: pend) rest
      else if c = '.' then '.' :: collapseDotWsAux true [] rest
      else pend.reverse ++ (c :: collapseDotWsAux false [] rest)

/-- Model of `.replace(/\s*\.\s*/g, '.')` (parseRoutineToken). -/
def collapseDotWs (cs : List Char) : List Char :=
  collapseDotWsAux false [] cs

/-- Structural model of JavaScript `String.prototype.split` with a
one-character separator (keeps empty pieces; an empty string yields one
empty piece). -/
def splitOnCharList (sep : Char) : List Char → List (List Char)
  | [] => [[]]
  | c :: rest =>
      let r := splitOnCharList sep rest
      if c = sep then [] :: r
      else
        match r with
        | h :: t => (c :: h) :: t
        | [] => [[c]]

/-- `splitOnCharList` on strings. -/
def splitOnCharStr (s : String) (sep : Char) : List String :=
  (splitOnCharList sep s.data).map String.mk

/-- The `while (parts.length > 0 && !schemaPart)` pop loop of
`parseRoutineToken`: the rightmost truthy (nonempty) element. -/
def lastTruthy : List String → Option String
  | [] => none
  | x :: rest =>
      match lastTruthy rest with
      | some y => some y
      | none => if x = "" then none else some x

/-- Embedding of `parseRoutineToken` (sqlParser.ts): trim, strip brackets,
normalize whitespace around dots, split on dots; the last part is the
prefix, the rightmost nonempty earlier part the schema.  Returns
`(schema, prefix)`. -/
def parseRoutineToken (token : String) : Option String × String :=
  let trimmed := jsTrim token
  if trimmed = "" then (none, "")
  else
    let withoutBrackets := stripBrackets trimmed
    let normalized := String.mk (collapseDotWs withoutBrackets.data)
    let parts := splitOnCharStr normalized '.'
    let prefixPart := (parts.getLast?).getD ""
    let schemaPart := lastTruthy parts.dropLast
    (schemaPart, prefixPart)

/-- Embedding of `determineRoutineCategory` (sqlParser.ts). -/
def determineRoutineCategory (keyword : String) : RoutineCategoryKind :=
  let lower := toLowerStr keyword
  if lower = "view" then .view
  else if lower = "function" then .function
  else .procedure

/-- Embedding of `buildRoutineContext` (sqlParser.ts). -/
def buildRoutineContext (token : String) (category : RoutineCategoryKind) :
    CompletionContextResult :=
  let p := parseRoutineToken token
  { type := .routine, prefixText := p.2, owner := p.1, routineCategory := some category }

/-- Embedding of `detectRoutineContext` (sqlParser.ts): the EXEC regex is
tried first (always category procedure), then the DDL regex. -/
def detectRoutineContext (linePrefix : String) : Option CompletionContextResult :=
  match execRegexSearch linePrefix with
  | some tok => some (buildRoutineContext tok .procedure)
  | none =>
      match ddlRegexSearch linePrefix with
      | some (kw, tok) => some (buildRoutineContext tok (determineRoutineCategory kw))
      | none => none

/-- Model of `String.prototype.trimEnd`. -/
def jsTrimEnd (s : String) : String :=
  String.mk (s.data.reverse.dropWhile jsIsWs).reverse

/-- Embedding of `extractOwnerBeforeDot` (sqlParser.ts): drop the trailing
dot, take the maximal suffix of word/bracket characters, strip brackets;
empty when there is no match. -/
def extractOwnerBeforeDot (text : String) : String :=
  let withoutTrailingDot := text.data.dropLast
  let run := (withoutTrailingDot.reverse.takeWhile
    (fun c => charIsWordJs c ∨ c = '[' ∨ c = ']')).reverse
  if run.isEmpty then ""
  else String.mk (run.filter (fun c => ¬ (c = '[' ∨ c = ']')))

/-- The class `[\w$]` of `getLastWord`. -/
def wordDollarChar (c : Char) : Bool := charIsWordJs c ∨ c = '$'

/-- Embedding of `getLastWord` (sqlParser.ts): the leftmost start inside the
maximal `[\w$]` suffix whose first character is a letter or underscore, per
`/([A-Za-z_][\w\$]*)$/i`. -/
def getLastWord (p : String) : String :=
  let run := (p.data.reverse.takeWhile wordDollarChar).reverse
  String.mk (run.dropWhile (fun c => ¬ (c.isAlpha ∨ c = '_')))

/-- Embedding of `getLastToken` (sqlParser.ts): maximal suffix matching
`/([\w\[\]\.]+)$/`, empty when there is none. -/
def getLastToken (p : String) : String :=
  String.mk (p.data.reverse.takeWhile
    (fun c => charIsWordJs c ∨ c = '[' ∨ c = ']' ∨ c = '.')).reverse

/-- Embedding of `splitToken` (sqlParser.ts): split at the last dot;
`(owner part?, trailing part)`. -/
def splitTokenJs (token : String) : Option String × String :=
  let ds := token.data
  let tailRun := ds.reverse.takeWhile (fun c => ¬ (c = '.'))
  if tailRun.length = ds.length then (none, token)
  else
    (some (String.mk (ds.take (ds.length - tailRun.length - 1))),
     String.mk tailRun.reverse)

/-- The test `/[,()]\s*$/.test(trimmedPrefix)` applied to an already
right-trimmed string: its last character is a comma or parenthesis. -/
def endsInListPunct : Option Char → Bool
  | some c => c = ',' ∨ c = '(' ∨ c = ')'
  | none => false

/-- Embedding of `SqlParser.analyzeCompletionContext` (sqlParser.ts),
taking the line text before the cursor directly. -/
def analyzeCompletionContext (linePrefix : String) : CompletionContextResult :=
  match detectRoutineContext linePrefix with
  | some routineContext => routineContext
  | none =>
    let trimmedPrefix := jsTrimEnd linePrefix
    if trimmedPrefix.data.getLast? = some '.' then
      let owner := extractOwnerBeforeDot trimmedPrefix
      { type := .column, owner := some owner, prefixText := "", aliasName := some owner }
    else
      let token := getLastToken trimmedPrefix
      if token.data.contains '.' then
        let st := splitTokenJs token
        let owner := match st.1 with | some o => stripBrackets o | none => ""
        { type := .column, owner := some owner, aliasName := some owner,
          prefixText := stripBrackets st.2 }
      else
        let prefixWord := getLastWord trimmedPrefix
        let lowerWord := toLowerStr prefixWord
        if lowerWord ∈ ["from", "join", "update", "into"] then
          { type := .table, prefixText := "" }
        else if lowerWord ∈ ["exec", "execute", "call"] then
          { type := .routine, prefixText := "" }
        else if lowerWord = "select" ∨ lowerWord = "where" ∨ lowerWord = "and" ∨
            lowerWord = "or" then
          { type := .keyword, prefixText := "" }
        else if endsInListPunct trimmedPrefix.data.getLast? then
          { type := .column, prefixText := "" }
        else
          { type := .table, prefixText := prefixWord }

example : analyzeCompletionContext "SELECT * FROM " = { type := .table, prefixText := "" } := by decide
example : analyzeCompletionContext "SELECT t." =
    { type := .column, owner := some "t", aliasName := some "t", prefixText := "" } := by decide
example : analyzeCompletionContext "EXEC dbo.sp_" =
    { type := .routine, routineCategory := some .procedure, owner := some "dbo",
      prefixText := "sp_" } := by decide

/-- Claim-side view of the partial routine name typed after the keyword:
its dotted segments (the source pipeline's trim, bracket strip and
dot-whitespace normalization applied first). -/
def routineTokenSegs (tok : String) : List String :=
  splitOnCharStr (String.mk (collapseDotWs (stripBrackets (jsTrim tok)).data)) '.'

theorem lastTruthy_all_ne (l : List String) (h : ∀ x ∈ l, x ≠ "") :
    lastTruthy l = l.getLast? := by
  induction l with
  | nil => rfl
  | cons x rest ih =>
    have hr := ih (fun y hy => h y (List.mem_cons_of_mem _ hy))
    cases rest with
    | nil =>
      have hx : x ≠ "" := h x (by simp)
      simp [lastTruthy, hx]
    | cons b bs =>
      have hbs : (b :: bs).getLast?.isSome := by
        cases hlast : (b :: bs).getLast? with
        | none => exact absurd hlast (by simp [List.getLast?_eq_none_iff])
        | some y => rfl
      rcases Option.isSome_iff_exists.mp hbs with ⟨y, hy⟩
      rw [List.getLast?_cons_cons]
      unfold lastTruthy
      rw [hr, hy]

/-- C7: when the text before the cursor matches the EXEC/EXECUTE/CALL
routine regex with partial name `tok`, the analyzer classifies it as a
routine with category procedure, owner the rightmost-but-one dotted segment
typed so far, and prefix the rightmost (possibly empty) partial segment.
The segment-nonemptiness hypothesis pins the claim's informal "segment" to
nonempty dotted segments (the code skips empty ones when resolving the
owner). -/
theorem C7_exec_routine_classification (lp tok : String)
    (hm : execRegexSearch lp = some tok)
    (hseg : ∀ seg ∈ (routineTokenSegs tok).dropLast, seg ≠ "") :
    analyzeCompletionContext lp =
      { type := .routine,
        routineCategory := some .procedure,
        owner := (routineTokenSegs tok).dropLast.getLast?,
        prefixText := ((routineTokenSegs tok).getLast?).getD "",
        aliasName := none } := by
  unfold analyzeCompletionContext detectRoutineContext
  rw [hm]
  unfold buildRoutineContext parseRoutineToken
  by_cases ht : jsTrim tok = ""
  · have hsegs : routineTokenSegs tok = [""] := by
      unfold routineTokenSegs
      rw [ht]
      decide
    simp [ht, hsegs]
  · have hparts : routineTokenSegs tok =
        splitOnCharStr (String.mk (collapseDotWs (stripBrackets (jsTrim tok)).data)) '.' := rfl
    simp only [ht, if_false]
    rw [← hparts, lastTruthy_all_ne _ hseg]

/-- C7 witness: the claim's concrete instance, via the general theorem. -/
theorem C7_exec_routine_classification_witness :
    analyzeCompletionContext "EXEC dbo.sp_" =
      { type := .routine, routineCategory := some .procedure, owner := some "dbo",
        prefixText := "sp_", aliasName := none } := by
  have h := C7_exec_routine_classification "EXEC dbo.sp_" "dbo.sp_" (by decide) (by decide)
  rw [h]
  decide

/-! ## sqlParser.ts — wildcard resolution

`findWildcardContext` works on the whole document text and a cursor offset
(`document.offsetAt(position)`); the embedding takes the text and the offset
directly, and models the returned `asteriskRange` by its two offsets. -/

/-- Embedding of the `target` record of `WildcardContext` (sqlParser.ts);
the source field `alias` is a Lean keyword and is named `aliasName` here. -/
structure WildcardTarget where
  schema : Option String := none
  object : String
  aliasName : Option String := none
deriving DecidableEq, Repr

/-- Embedding of `WildcardContext` (sqlParser.ts); `asteriskRange` is kept
as its start and end offsets. -/
structure WildcardContext where
  target : WildcardTarget
  asteriskStart : Nat
  asteriskStop : Nat
deriving DecidableEq, Repr

/-- Model of `.replace(/\s+/g, ' ')`: every whitespace run becomes one
space.  The Bool state records whether the previous character was
whitespace. -/
def collapseWsAux : Bool → List Char → List Char
  | _, [] => []
  | inWs, c :: rest =>
      if jsIsWs c then
        if inWs then collapseWsAux true rest else ' ' :: collapseWsAux true rest
      else c :: collapseWsAux false rest

/-- Model of `.replace(/[;,]/g, '')`. -/
def removePunct (s : String) : String :=
  String.mk (s.data.filter (fun c => ¬ (c = ';' ∨ c = ',')))

/-- Substring search (model of `String.prototype.indexOf`): index of the
first occurrence of `needle`. -/
def indexOfSubAux (needle : List Char) : List Char → Nat → Option Nat
  | [], i => if needle.isEmpty then some i else none
  | c :: rest, i =>
      if needle.isPrefixOf (c :: rest) then some i
      else indexOfSubAux needle rest (i + 1)

/-- Embedding of `isAliasBoundary` (sqlParser.ts): the reserved clause
keywords rejected as false aliases. -/
def isAliasBoundary (value : String) : Bool :=
  toLowerStr value ∈
    ["apply", "cross", "inner", "join", "left", "outer", "right", "full",
     "where", "group", "order", "having", "union", "intersect", "except",
     "limit", "offset", "fetch", "with", "on", "using"]

/-- Embedding of `parseTableToken` (sqlParser.ts): split on dots keeping
only truthy pieces, pop the object then the schema, strip brackets.
Returns `(schema, object)`. -/
def parseTableToken (token : String) : Option String × Option String :=
  let parts := (splitOnCharStr token '.').filter (fun p => p ≠ "")
  match parts.getLast? with
  | none => (none, none)
  | some objectPart =>
      let rest := parts.dropLast
      (rest.getLast?.map stripBrackets, some (stripBrackets objectPart))

/-- Embedding of `extractAliasFromTokens` (sqlParser.ts). -/
def extractAliasFromTokens (tokens : List String) : Option String :=
  match tokens with
  | [] => none
  | t0 :: rest0 =>
      let candidate0 := removePunct t0
      if candidate0 = "" then none
      else
        let candidate :=
          if toLowerStr candidate0 = "as" then
            ((rest0.head?).map removePunct).getD ""
          else candidate0
        if candidate = "" ∨ isAliasBoundary candidate then none
        else some (stripBrackets candidate)

/-- The asterisk location step of `findWildcardContext`: the offset itself
when it holds `*`, else the offset just before when that holds `*`. -/
def wildcardAsteriskOffset (text : String) (originalOffset : Nat) : Option Nat :=
  if text.data.get? originalOffset = some '*' then some originalOffset
  else if originalOffset ≠ 0 ∧ text.data.get? (originalOffset - 1) = some '*' then
    some (originalOffset - 1)
  else none

/-- The FROM-clause tokenization step of `findWildcardContext`: normalize
whitespace after the asterisk, find `from `, split what follows on single
spaces.  `none` reproduces the source's early `return undefined` paths. -/
def wildcardFromTokens (text : String) (asteriskOffset : Nat) : Option (List String) :=
  let afterText := text.data.drop (asteriskOffset + 1)
  let normalizedAfter := jsTrimList (collapseWsAux false afterText)
  if normalizedAfter.isEmpty then none
  else
    match indexOfSubAux "from ".data (normalizedAfter.map Char.toLower) 0 with
    | none => none
    | some fromIndex =>
        let afterFrom := jsTrimList (normalizedAfter.drop (fromIndex + 5))
        if afterFrom.isEmpty then none
        else some (splitOnCharStr (String.mk afterFrom) ' ')

/-- The backward qualifier scan of `findWildcardContext`:
`/([\w\[\]\.\]+)\.\s*$/` applied to the text before the asterisk, group 1. -/
def wildcardQualifier (before : List Char) : Option String :=
  let b1 := before.reverse.dropWhile jsIsWs
  match b1 with
  | '.' :: restR =>
      let runR := restR.takeWhile
        (fun c => charIsWordJs c ∨ c = '[' ∨ c = ']' ∨ c = '.')
      if runR.isEmpty then none else some (String.mk runR.reverse)
  | _ => none

/-- Embedding of `SqlParser.findWildcardContext` (sqlParser.ts). -/
def findWildcardContext (text : String) (originalOffset : Nat) : Option WildcardContext :=
  match wildcardAsteriskOffset text originalOffset with
  | none => none
  | some asteriskOffset =>
      match wildcardFromTokens text asteriskOffset with
      | none => none
      | some tokens =>
          let rawTableToken := tokens.head?.getD ""
          let remainingTokens := tokens.tail
          let tableToken := removePunct rawTableToken
          if tableToken = "" then none
          else
            let ps := parseTableToken tableToken
            match ps.2 with
            | none => none
            | some object =>
                if object = "" then none
                else
                  let aliasFromFromClause := extractAliasFromTokens remainingTokens
                  let beforeText := text.data.take asteriskOffset
                  let qualifier := (wildcardQualifier beforeText).map jsTrim
                  let alias0 :=
                    match qualifier with
                    | some q => some q
                    | none => aliasFromFromClause
                  some { target := { schema := ps.1, object := object, aliasName := alias0 },
                         asteriskStart := asteriskOffset,
                         asteriskStop := asteriskOffset + 1 }

example : findWildcardContext "SELECT * FROM Sales.Orders o" 7 =
    some { target := { schema := some "Sales", object := "Orders", aliasName := some "o" },
           asteriskStart := 7, asteriskStop := 8 } := by decide
example : findWildcardContext "SELECT 1" 7 = none := by decide
example : findWildcardContext "SELECT t.* FROM dbo.T x" 9 =
    some { target := { schema := some "dbo", object := "T", aliasName := some "t" },
           asteriskStart := 9, asteriskStop := 10 } := by decide
example : findWildcardContext "SELECT * FROM T WHERE x = 1" 7 =
    some { target := { schema := none, object := "T", aliasName := none },
           asteriskStart := 7, asteriskStop := 8 } := by decide

/-- C8: the wildcard resolver's alias choice — an explicit qualifier
immediately before the wildcard is preferred; otherwise the token following
the table name in the FROM clause (via `extractAliasFromTokens`, which
handles an optional AS) is used; a candidate that is a SQL clause keyword is
rejected; and the claim's concrete example resolves schema "Sales", object
"Orders", alias "o". -/
theorem C8_wildcard_alias_resolution :
    (∀ text off ctx astOff q,
        findWildcardContext text off = some ctx →
        wildcardAsteriskOffset text off = some astOff →
        (wildcardQualifier (text.data.take astOff)).map jsTrim = some q →
        ctx.target.aliasName = some q) ∧
    (∀ text off ctx astOff tokens,
        findWildcardContext text off = some ctx →
        wildcardAsteriskOffset text off = some astOff →
        wildcardFromTokens text astOff = some tokens →
        wildcardQualifier (text.data.take astOff) = none →
        ctx.target.aliasName = extractAliasFromTokens tokens.tail) ∧
    (∀ t rest, isAliasBoundary (removePunct t) = true →
        extractAliasFromTokens (t :: rest) = none) ∧
    findWildcardContext "SELECT * FROM Sales.Orders o" 7 =
      some { target := { schema := some "Sales", object := "Orders", aliasName := some "o" },
             asteriskStart := 7, asteriskStop := 8 } := by
  refine ⟨?_, ?_, ?_, by decide⟩
  · intro text off ctx astOff q h hast hq
    simp only [findWildcardContext, hast] at h
    cases hft : wildcardFromTokens text astOff with
    | none => rw [hft] at h; simp at h
    | some tokens =>
      rw [hft] at h
      simp only [hq] at h
      split at h
      · simp at h
      · split at h
        · simp at h
        · split at h
          · simp at h
          · rw [← Option.some_inj.mp h]
  · intro text off ctx astOff tokens h hast hft hq
    simp only [findWildcardContext, hast, hft] at h
    simp only [hq, Option.map_none'] at h
    split at h
    · simp at h
    · split at h
      · simp at h
      · split at h
        · simp at h
        · rw [← Option.some_inj.mp h]
  · intro t rest hb
    unfold extractAliasFromTokens
    by_cases hc : removePunct t = ""
    · rw [hc] at hb
      exact absurd hb (by decide)
    · by_cases has : toLowerStr (removePunct t) = "as"
      · unfold isAliasBoundary at hb
        rw [has] at hb
        exact absurd hb (by decide)
      · simp [hc, has, hb]

/-! ## queries.ts — catalog query builders -/

/-- Model of `value.replace(/c/g, r)` for a one-character pattern. -/
def replaceAllChar (s : String) (c : Char) (r : String) : String :=
  String.mk (s.data.flatMap (fun ch => if ch = c then r.data else [ch]))

/-- Embedding of `escapeSqlLiteral` (queries.ts): double quotes and closing
brackets. -/
def escapeSqlLiteral (value : String) : String :=
  replaceAllChar (replaceAllChar value '\'' "''") ']' "]]"

/-- Embedding of `escapeSqlIdentifier` (queries.ts). -/
def escapeSqlIdentifier (value : String) : String :=
  replaceAllChar value ']' "]]"

/-- Embedding of `qualifyCatalogScope` (queries.ts); a missing or empty
(falsy) database yields no prefix. -/
def qualifyCatalogScope (database : Option String) : String :=
  match database with
  | some d => if d = "" then "" else "[" ++ escapeSqlIdentifier d ++ "]."
  | none => ""

/-- Embedding of `qualifyIdentifier` (queries.ts). -/
def qualifyIdentifier (schema object : String) (database : Option String) : String :=
  let databasePart :=
    match database with
    | some d => if d = "" then "" else "[" ++ escapeSqlIdentifier d ++ "]."
    | none => ""
  let schemaPart := "[" ++ escapeSqlIdentifier schema ++ "]"
  let objectPart := "[" ++ escapeSqlIdentifier object ++ "]"
  databasePart ++ schemaPart ++ "." ++ objectPart

/-- Embedding of `allObjectsQuery` (queries.ts). -/
def allObjectsQuery (database : Option String) : String :=
  let scope := qualifyCatalogScope database
  "\nSELECT\n    s.name AS schema_name,\n    o.name AS object_name,\n    o.type AS object_type,\n    o.type_desc AS object_type_desc\nFROM " ++
    scope ++ "sys.objects AS o\nINNER JOIN " ++ scope ++
    "sys.schemas AS s ON s.schema_id = o.schema_id\nWHERE o.type IN ('U', 'V', 'P', 'FN', 'IF', 'TF')\nORDER BY s.name, o.name;\n"

/-- Embedding of `columnsForObjectQuery` (queries.ts). -/
def columnsForObjectQuery (schema object : String) (database : Option String) : String :=
  let identifier := qualifyIdentifier schema object database
  let scope := qualifyCatalogScope database
  "\nSELECT\n    c.name AS column_name,\n    t.NAME AS data_type,\n    c.max_length AS max_length,\n    c.precision,\n    c.scale,\n    c.is_nullable,\n    ep.value AS description\nFROM " ++
    scope ++ "sys.columns AS c\nINNER JOIN " ++ scope ++
    "sys.types AS t ON t.user_type_id = c.user_type_id\nLEFT JOIN " ++ scope ++
    "sys.extended_properties AS ep ON ep.major_id = c.object_id AND ep.minor_id = c.column_id AND ep.name = 'MS_Description'\nWHERE c.object_id = OBJECT_ID(N'" ++
    identifier ++ "')\nORDER BY c.column_id;\n"

/-- Embedding of `extendedPropertyDescriptionQuery` (queries.ts). -/
def extendedPropertyDescriptionQuery (schema object : String) (database : Option String) : String :=
  let scope := qualifyCatalogScope database
  "\nSELECT CAST(ep.value AS NVARCHAR(MAX)) AS description\nFROM " ++ scope ++
    "sys.fn_listextendedproperty('MS_Description', 'SCHEMA', N'" ++
    escapeSqlLiteral schema ++ "', 'TABLE', N'" ++ escapeSqlLiteral object ++
    "', NULL, NULL);\n"

/-- Embedding of `foreignKeysQuery` (queries.ts). -/
def foreignKeysQuery (database : Option String) : String :=
  let scope := qualifyCatalogScope database
  "\nSELECT\n    fk.name AS constraint_name,\n    sch_parent.name AS parent_schema,\n    parent_object.name AS parent_table,\n    sch_ref.name AS referenced_schema,\n    referenced_object.name AS referenced_table,\n    parent_column.name AS parent_column,\n    referenced_column.name AS referenced_column\nFROM " ++
    scope ++ "sys.foreign_keys AS fk\nINNER JOIN " ++ scope ++
    "sys.foreign_key_columns AS fkc ON fkc.constraint_object_id = fk.object_id\nINNER JOIN " ++
    scope ++ "sys.tables AS parent_object ON parent_object.object_id = fk.parent_object_id\nINNER JOIN " ++
    scope ++ "sys.schemas AS sch_parent ON sch_parent.schema_id = parent_object.schema_id\nINNER JOIN " ++
    scope ++ "sys.tables AS referenced_object ON referenced_object.object_id = fk.referenced_object_id\nINNER JOIN " ++
    scope ++ "sys.schemas AS sch_ref ON sch_ref.schema_id = referenced_object.schema_id\nINNER JOIN " ++
    scope ++ "sys.columns AS parent_column ON parent_column.object_id = fk.parent_object_id AND parent_column.column_id = fkc.parent_column_id\nINNER JOIN " ++
    scope ++ "sys.columns AS referenced_column ON referenced_column.object_id = fk.referenced_object_id AND referenced_column.column_id = fkc.referenced_column_id;\n"

/-- The column aliases produced by the SELECT list of
`columnsForObjectQuery` (queries.ts lines 20-27): these, and only these,
can appear as keys of a row of its result. -/
def columnsQuerySelectAliases : List String :=
  ["column_name", "data_type", "max_length", "precision", "scale",
   "is_nullable", "description"]

/-! ## schemaCache.ts — data model and the cache state machine

`MssqlApi.runQuery` becomes an abstract deterministic `Loader`; the
`Map`-typed cache becomes an association list with JavaScript `Map.set`
semantics (replace in place, else append); each operation returns its
result, the updated cache and the list of query texts it sent to the
loader, in order.  `Date.now()` becomes an explicit `now` argument.  A
cancellation token is not modelled separately: a cancelled query is a
loader call that returns no result. -/

/-- A result row: column name to cell value, as `QueryRow`. -/
abbrev Row := List (String × JsValue)

/-- Cell lookup, `row['name']`; a missing column is `undefined`. -/
def rowGet (row : Row) (k : String) : Option JsValue :=
  match row.find? (fun p => p.1 = k) with
  | some p => some p.2
  | none => none

/-- Embedding of `QueryResult` (mssqlApi.ts). -/
structure QueryResult where
  columns : List String
  rows : List Row
deriving DecidableEq

/-- The metadata loader: query text to optional tabular result
(`MssqlApi.runQuery`); a failed, unavailable or cancelled query yields
`none`.  Determinism (same query, same snapshot, same result) is inherent
in modelling it as a function. -/
abbrev Loader := String → Option QueryResult

/-- Embedding of `MssqlApi.runScalar`: first row's first column of the
query result, absent when the result is missing or empty. -/
def loaderRunScalar (loader : Loader) (q : String) : Option JsValue :=
  match loader q with
  | none => none
  | some result =>
      match result.rows, result.columns with
      | firstRow :: _, firstColumn :: _ => rowGet firstRow firstColumn
      | _, _ => none

/-- Embedding of `TableType` (schemaCache.ts). -/
inductive TableType where
  | TABLE | VIEW
deriving DecidableEq, Repr

/-- Embedding of `RoutineType` (schemaCache.ts). -/
inductive RoutineType where
  | PROCEDURE | FUNCTION
deriving DecidableEq, Repr

/-- Embedding of `ColumnMetadata` (schemaCache.ts). -/
structure ColumnMetadata where
  name : String
  dataType : String
  maxLength : Option Int := none
  precision : Option Int := none
  scale : Option Int := none
  isNullable : Bool
  description : Option String := none
  isIdentity : Bool
  isComputed : Bool
  isRowGuid : Bool
  defaultExpression : Option String := none
deriving DecidableEq, Repr

/-- Embedding of `TableMetadata` (schemaCache.ts). -/
structure TableMetadata where
  schema : String
  name : String
  type : TableType
  description : Option String := none
  columns : Option (List ColumnMetadata) := none
deriving DecidableEq, Repr

/-- Embedding of `RoutineParameter` (schemaCache.ts). -/
structure RoutineParameter where
  name : String
  dataType : String
  maxLength : Option Int := none
  precision : Option Int := none
  scale : Option Int := none
  isOutput : Bool
deriving DecidableEq, Repr

/-- Embedding of `RoutineMetadata` (schemaCache.ts). -/
structure RoutineMetadata where
  schema : String
  name : String
  type : RoutineType
  definition : Option String := none
  parameters : Option (List RoutineParameter) := none
deriving DecidableEq, Repr

/-- Embedding of `ForeignKeyRelation` (schemaCache.ts). -/
structure ForeignKeyRelation where
  constraint : String
  parentSchema : String
  parentTable : String
  parentColumn : String
  referencedSchema : String
  referencedTable : String
  referencedColumn : String
deriving DecidableEq, Repr

/-- Embedding of `CacheEntry` (schemaCache.ts); the `Map`s are association
lists in insertion order. -/
structure CacheEntry where
  tables : List (String × TableMetadata) := []
  routines : List (String × RoutineMetadata) := []
  foreignKeys : List ForeignKeyRelation := []
  timestamp : Nat := 0
deriving DecidableEq, Repr

/-- The `SchemaCache`'s private `cache` map, connection key to entry. -/
abbrev Cache := List (String × CacheEntry)

/-- `Map.prototype.get`. -/
def mapGet {α : Type} (m : List (String × α)) (k : String) : Option α :=
  match m.find? (fun p => p.1 = k) with
  | some p => some p.2
  | none => none

/-- `Map.prototype.set`: replace the binding in place, else append. -/
def mapSet {α : Type} : List (String × α) → String → α → List (String × α)
  | [], k, v => [(k, v)]
  | (k0, v0) :: rest, k, v =>
      if k0 = k then (k, v) :: rest else (k0, v0) :: mapSet rest k v

/-- `Map.prototype.delete`. -/
def mapDelete {α : Type} : List (String × α) → String → List (String × α)
  | [], _ => []
  | (k0, v0) :: rest, k => if k0 = k then rest else (k0, v0) :: mapDelete rest k

/-- Embedding of `MssqlConnection` (mssqlApi.ts). -/
structure MssqlConnection where
  connectionId : Option String := none
  server : Option String := none
  database : Option String := none
  user : Option String := none
deriving DecidableEq, Repr

/-- Embedding of `MssqlApi.getConnectionKey`: the nonblank parts of
id/server/database/user joined with `|`; absent when there are none. -/
def getConnectionKey : Option MssqlConnection → Option String
  | none => none
  | some conn =>
      let parts := ([conn.connectionId, conn.server, conn.database, conn.user].filterMap id).filter
        (fun p => (jsTrim p).length ≠ 0)
      if parts.isEmpty then none else some (String.intercalate "|" parts)

/-- The idiom `connection?.database`. -/
def optDb : Option MssqlConnection → Option String
  | some c => c.database
  | none => none

/-- Embedding of `toObjectKey` (schemaCache.ts). -/
def toObjectKey (schema name : String) : String :=
  toLowerStr schema ++ "." ++ toLowerStr name

/-- Embedding of `formatDataType` (schemaCache.ts), length/base fallback:
the branch taken when the precision branch does not fire. -/
def formatLengthOrBase (baseType : String) (maxLength : Option Int) : String :=
  match maxLength with
  | some m =>
      if m > 0 ∧ ¬ (baseType ∈ ["ntext", "text", "image"]) then
        if m = -1 then baseType ++ "(max)"
        else baseType ++ "(" ++ toString m ++ ")"
      else baseType
  | none => baseType

/-- Embedding of `formatDataType` (schemaCache.ts). -/
def formatDataType (row : Row) : String :=
  let baseType := jsCoalesceStr (rowGet row "data_type")
  let precision := toNumber (rowGet row "precision")
  let scale := toNumber (rowGet row "scale")
  let maxLength := toNumber (rowGet row "max_length")
  match precision, scale with
  | some p, some sc =>
      if p > 0 then baseType ++ "(" ++ toString p ++ ", " ++ toString sc ++ ")"
      else formatLengthOrBase baseType maxLength
  | _, _ => formatLengthOrBase baseType maxLength

/-- The row-to-column mapping of `populateColumns` (schemaCache.ts). -/
def buildColumnMetadata (row : Row) : ColumnMetadata :=
  { name := jsCoalesceStr (rowGet row "column_name")
    dataType := formatDataType row
    maxLength := toNumber (rowGet row "max_length")
    precision := toNumber (rowGet row "precision")
    scale := toNumber (rowGet row "scale")
    isNullable := toBoolean (rowGet row "is_nullable")
    description :=
      match rowGet row "description" with
      | some v => if jsTruthy v then some (jsToString v) else none
      | none => none
    isIdentity := toBoolean (rowGet row "is_identity")
    isComputed := toBoolean (rowGet row "is_computed")
    isRowGuid := toBoolean (rowGet row "is_rowguidcol")
    defaultExpression :=
      match rowGet row "default_definition" with
      | some v => if jsTruthy v then some (jsToString v) else none
      | none => none }

/-- The idiom `options?.database ?? connection?.database` of the populate
steps. -/
def effectiveDb (conn : Option MssqlConnection) (options : Option String) : Option String :=
  match options with
  | some d => some d
  | none => optDb conn

/-- Embedding of `SchemaCache.populateColumns`: run the columns query for
the table's own schema/name in the requested (or connection default)
database; on failure return the table unchanged.  Returns the table and
the queries issued. -/
def populateColumns (loader : Loader) (conn : Option MssqlConnection)
    (table : TableMetadata) (options : Option String) : TableMetadata × List String :=
  let queryDatabase := effectiveDb conn options
  let q := columnsForObjectQuery table.schema table.name queryDatabase
  match loader q with
  | none => (table, [q])
  | some result =>
      ({ table with columns := some (result.rows.map buildColumnMetadata) }, [q])

/-- Embedding of `SchemaCache.populateDescription`: a truthy scalar result
is attached, anything else leaves the table unchanged. -/
def populateDescription (loader : Loader) (conn : Option MssqlConnection)
    (table : TableMetadata) (options : Option String) : TableMetadata × List String :=
  let queryDatabase := effectiveDb conn options
  let q := extendedPropertyDescriptionQuery table.schema table.name queryDatabase
  match loaderRunScalar loader q with
  | some v =>
      (if jsTruthy v then { table with description := some (jsToString v) } else table, [q])
  | none => (table, [q])

/-- Embedding of `SchemaCache.loadTableOnDemand`: start from a bare TABLE
record, fetch columns (zero columns means the object does not exist), then
the description. -/
def loadTableOnDemand (loader : Loader) (conn : Option MssqlConnection)
    (schema name : String) (options : Option String) :
    Option TableMetadata × List String :=
  match conn with
  | none => (none, [])
  | some c =>
      let t0 : TableMetadata := { schema := schema, name := name, type := .TABLE }
      let pc := populateColumns loader (some c) t0 options
      match pc.1.columns with
      | none => (none, pc.2)
      | some cols =>
          if cols.isEmpty then (none, pc.2)
          else
            let pd := populateDescription loader (some c) pc.1 options
            (some pd.1, pc.2 ++ pd.2)

/-- Embedding of `SchemaCache.loadTableCrossDatabase`: a one-shot on-demand
load against a clone of the connection pointed at the explicit database. -/
def loadTableCrossDatabase (loader : Loader) (c : MssqlConnection)
    (database schema name : String) : Option TableMetadata × List String :=
  let clone : MssqlConnection := { c with database := some database }
  loadTableOnDemand loader (some clone) schema name (some database)

/-- The bulk-snapshot row walk of `ensureCache` (schemaCache.ts): rows with
a blank schema or name are skipped; `U`/`V` become tables, `P`/`FN`/`IF`/`TF`
become routines. -/
def ensureCacheRows : List Row → List (String × TableMetadata) →
    List (String × RoutineMetadata) →
    List (String × TableMetadata) × List (String × RoutineMetadata)
  | [], tables, routines => (tables, routines)
  | row :: rest, tables, routines =>
      let objectSchema := jsTrim (jsCoalesceStr (rowGet row "schema_name"))
      let objectName := jsTrim (jsCoalesceStr (rowGet row "object_name"))
      let ty := jsTrim (jsCoalesceStr (rowGet row "object_type"))
      if objectSchema = "" ∨ objectName = "" then ensureCacheRows rest tables routines
      else if ty = "U" ∨ ty = "V" then
        ensureCacheRows rest
          (mapSet tables (toObjectKey objectSchema objectName)
            { schema := objectSchema, name := objectName,
              type := if ty = "U" then .TABLE else .VIEW })
          routines
      else if ty ∈ ["P", "FN", "IF", "TF"] then
        ensureCacheRows rest tables
          (mapSet routines (toObjectKey objectSchema objectName)
            { schema := objectSchema, name := objectName,
              type := if ty = "P" then .PROCEDURE else .FUNCTION })
      else ensureCacheRows rest tables routines

/-- The foreign-key row mapping of `ensureCache` (schemaCache.ts). -/
def fkFromRow (row : Row) : ForeignKeyRelation :=
  { constraint := jsCoalesceStr (rowGet row "constraint_name")
    parentSchema := jsCoalesceStr (rowGet row "parent_schema")
    parentTable := jsCoalesceStr (rowGet row "parent_table")
    parentColumn := jsCoalesceStr (rowGet row "parent_column")
    referencedSchema := jsCoalesceStr (rowGet row "referenced_schema")
    referencedTable := jsCoalesceStr (rowGet row "referenced_table")
    referencedColumn := jsCoalesceStr (rowGet row "referenced_column") }

/-- Embedding of `SchemaCache.ensureCache`: no connection key means no
entry; a cached entry is returned as is; otherwise the bulk object list and
(on its success) the foreign keys are fetched, and the entry — empty when
the bulk fetch failed — is stored under the key either way. -/
def ensureCache (loader : Loader) (conn : Option MssqlConnection) (now : Nat)
    (cache : Cache) : Option CacheEntry × Cache × List String :=
  match getConnectionKey conn with
  | none => (none, cache, [])
  | some key =>
      match mapGet cache key with
      | some cached => (some cached, cache, [])
      | none =>
          let q := allObjectsQuery (optDb conn)
          match loader q with
          | some result =>
              let tr := ensureCacheRows result.rows [] []
              let fq := foreignKeysQuery (optDb conn)
              let foreignKeys :=
                match loader fq with
                | some fkResult => fkResult.rows.map fkFromRow
                | none => []
              let entry : CacheEntry :=
                { tables := tr.1, routines := tr.2, foreignKeys := foreignKeys,
                  timestamp := now }
              (some entry, mapSet cache key entry, [q, fq])
          | none =>
              let entry : CacheEntry := { timestamp := now }
              (some entry, mapSet cache key entry, [q])

/-- Embedding of `SchemaCache.getTables`: ensure the entry and list its
tables and views. -/
def getTables (loader : Loader) (conn : Option MssqlConnection) (now : Nat)
    (cache : Cache) : List TableMetadata × Cache × List String :=
  let ec := ensureCache loader conn now cache
  match ec.1 with
  | some entry =>
      ((entry.tables.map Prod.snd).filter (fun t => t.type = .TABLE ∨ t.type = .VIEW),
        ec.2.1, ec.2.2)
  | none => ([], ec.2.1, ec.2.2)

/-- The cross-database test of `getTable` (schemaCache.ts):
`options?.database && connection?.database && lowercase-different`. -/
def crossDatabaseRequested (conn : Option MssqlConnection) (options : Option String) : Bool :=
  match options, conn with
  | some db, some c =>
      match c.database with
      | some cdb => db ≠ "" ∧ cdb ≠ "" ∧ toLowerStr db ≠ toLowerStr cdb
      | none => false
  | _, _ => false

/-- The JavaScript test `!table.description`: absent or empty. -/
def descFalsy : Option String → Bool
  | none => true
  | some s => s = ""

/-- The two lazy fill steps at the end of `getTable` (schemaCache.ts): fetch
and attach columns when absent, then the description when falsy; each fill
re-stores the table in the live entry (`entry.tables.set(key, table)`),
which writes through to the cache slot `ckey`. -/
def getTableFill (loader : Loader) (conn : Option MssqlConnection)
    (key ckey : String) (t0 : TableMetadata) (entry : CacheEntry)
    (options : Option String) (cache : Cache) (log : List String) :
    Option TableMetadata × Cache × List String :=
  let step1 :=
    if t0.columns.isNone then
      let pc := populateColumns loader conn t0 options
      let e1 : CacheEntry := { entry with tables := mapSet entry.tables key pc.1 }
      (pc.1, e1, mapSet cache ckey e1, log ++ pc.2)
    else (t0, entry, cache, log)
  match step1 with
  | (t1, e1, c2, l2) =>
      if descFalsy t1.description then
        let pd := populateDescription loader conn t1 options
        let e2 : CacheEntry := { e1 with tables := mapSet e1.tables key pd.1 }
        (some pd.1, mapSet c2 ckey e2, l2 ++ pd.2)
      else (some t1, c2, l2)

/-- The same-database path of `getTable` (schemaCache.ts): ensure the entry
(falling back to a one-shot on-demand load when there is none), look the
object up, on a miss insert the on-demand result, then run the lazy
fills. -/
def getTableSameDb (loader : Loader) (conn : Option MssqlConnection)
    (schema name : String) (options : Option String) (now : Nat) (cache : Cache) :
    Option TableMetadata × Cache × List String :=
  let ec := ensureCache loader conn now cache
  match ec.1 with
  | none =>
      let od := loadTableOnDemand loader conn schema name options
      (od.1, ec.2.1, ec.2.2 ++ od.2)
  | some entry =>
      let ckey := (getConnectionKey conn).getD ""
      let key := toObjectKey schema name
      match mapGet entry.tables key with
      | none =>
          let od := loadTableOnDemand loader conn schema name options
          match od.1 with
          | none => (none, ec.2.1, ec.2.2 ++ od.2)
          | some t0 =>
              let e1 : CacheEntry := { entry with tables := mapSet entry.tables key t0 }
              getTableFill loader conn key ckey t0 e1 options
                (mapSet ec.2.1 ckey e1) (ec.2.2 ++ od.2)
      | some t0 => getTableFill loader conn key ckey t0 entry options ec.2.1 ec.2.2

/-- Embedding of `SchemaCache.getTable`: the cross-database branch bypasses
the cache entirely; otherwise the same-database path runs. -/
def getTable (loader : Loader) (conn : Option MssqlConnection)
    (schema name : String) (options : Option String) (now : Nat) (cache : Cache) :
    Option TableMetadata × Cache × List String :=
  match conn, options with
  | some c, some db =>
      if crossDatabaseRequested (some c) (some db) then
        let r := loadTableCrossDatabase loader c db schema name
        (r.1, cache, r.2)
      else getTableSameDb loader (some c) schema name (some db) now cache
  | _, _ => getTableSameDb loader conn schema name options now cache

/-- Embedding of `SchemaCache.invalidate`. -/
def invalidate (conn : Option MssqlConnection) (cache : Cache) : Cache :=
  match getConnectionKey conn with
  | some key => mapDelete cache key
  | none => cache

/-! ## Claim C2 — data-type formatting -/

/-- Claim-side data-type rule as amended: `BASE(precision, scale)` when
precision and scale are both known and the precision is positive (the
original claim required a positive scale, but the source tests
`precision > 0`); otherwise `BASE(length)` when a declared max length is
known and positive and the base type is not a legacy unbounded text/image
type — the `(max)` sentinel clause is kept exactly where the claim puts it,
inside the positive-length branch, where it is unreachable because the
sentinel -1 is not positive, so a row with max length -1 renders the bare
base type; otherwise the bare base type. -/
def claimFormatDataTypeAmended (row : Row) : String :=
  let base := jsCoalesceStr (rowGet row "data_type")
  let precisionVal := toNumber (rowGet row "precision")
  let scaleVal := toNumber (rowGet row "scale")
  let maxLengthVal := toNumber (rowGet row "max_length")
  if 0 < precisionVal.getD 0 ∧ scaleVal.isSome then
    base ++ "(" ++ toString (precisionVal.getD 0) ++ ", " ++ toString (scaleVal.getD 0) ++ ")"
  else if 0 < maxLengthVal.getD 0 ∧ ¬ (base ∈ ["ntext", "text", "image"]) then
    if maxLengthVal = some (-1) then base ++ "(max)"
    else base ++ "(" ++ toString (maxLengthVal.getD 0) ++ ")"
  else base

theorem formatLengthOrBase_eq_claim (base : String) (m : Option Int) :
    formatLengthOrBase base m =
      (if 0 < m.getD 0 ∧ ¬ (base ∈ ["ntext", "text", "image"]) then
        (if m = some (-1) then base ++ "(max)"
         else base ++ "(" ++ toString (m.getD 0) ++ ")")
       else base) := by
  cases m with
  | none => simp [formatLengthOrBase]
  | some v =>
    unfold formatLengthOrBase
    by_cases hv : 0 < v
    · by_cases hb : base ∈ ["ntext", "text", "image"] <;>
        simp [hv, hb, Option.some.injEq]
    · simp [hv]

/-- C2 counterexample: a row with base type nvarchar and the unbounded
sentinel max length -1 formats as bare "nvarchar", not "nvarchar(max)" —
the `(max)` branch sits inside a `maxLength > 0` guard and cannot fire —
and a row with precision 18 and scale 0 formats as "decimal(18, 0)"
although the claim's first branch requires a positive scale. -/
theorem C2_counterexample :
    formatDataType [("data_type", .jstr "nvarchar"), ("max_length", .jnum (-1))] =
      "nvarchar" ∧
    "nvarchar" ≠ "nvarchar(max)" ∧
    formatDataType [("data_type", .jstr "decimal"), ("precision", .jnum 18),
      ("scale", .jnum 0), ("max_length", .jnum 9)] = "decimal(18, 0)" := by
  refine ⟨by decide, by decide, by decide⟩

/-- C2 (amended): for every catalog row the formatter renders
`BASE(precision, scale)` when precision and scale are known and the
precision is positive; otherwise `BASE(length)` for a known positive
length on a non-legacy base type (the `(max)` sentinel branch being
unreachable, a max length of -1 falls through to the bare base type);
otherwise the bare base type.  In particular precision 18 / scale 2 with
base decimal gives "decimal(18, 2)", max length -1 with base nvarchar
gives bare "nvarchar", and base text gives bare "text" for any max
length. -/
theorem C2_format_data_type_amended :
    (∀ row : Row, formatDataType row = claimFormatDataTypeAmended row) ∧
    formatDataType [("data_type", .jstr "decimal"), ("precision", .jnum 18),
      ("scale", .jnum 2), ("max_length", .jnum 9)] = "decimal(18, 2)" ∧
    formatDataType [("data_type", .jstr "nvarchar"), ("max_length", .jnum (-1))] =
      "nvarchar" ∧
    (∀ len : Int, formatDataType
      [("data_type", .jstr "text"), ("max_length", .jnum len)] = "text") := by
  refine ⟨?_, by decide, by decide, ?_⟩
  · intro row
    unfold formatDataType claimFormatDataTypeAmended
    dsimp only
    rw [formatLengthOrBase_eq_claim]
    cases hp : toNumber (rowGet row "precision") with
    | none => simp
    | some p =>
      cases hs : toNumber (rowGet row "scale") with
      | none => simp
      | some sc =>
        by_cases hpp : 0 < p <;> simp [hpp]
  · intro len
    have hdt : rowGet [("data_type", JsValue.jstr "text"),
        ("max_length", JsValue.jnum len)] "data_type" = some (JsValue.jstr "text") := rfl
    have hml : rowGet [("data_type", JsValue.jstr "text"),
        ("max_length", JsValue.jnum len)] "max_length" = some (JsValue.jnum len) := rfl
    have hpr : rowGet [("data_type", JsValue.jstr "text"),
        ("max_length", JsValue.jnum len)] "precision" = none := rfl
    have hsc : rowGet [("data_type", JsValue.jstr "text"),
        ("max_length", JsValue.jnum len)] "scale" = none := rfl
    unfold formatDataType
    dsimp only
    rw [hdt, hml, hpr, hsc]
    simp [toNumber, formatLengthOrBase, jsCoalesceStr, jsToString]

/-! ## Claim C10 — columns query selects no identity/computed/rowguid/default -/

theorem rowGet_eq_none_of_keys (row : Row) (allowed : List String) (k : String)
    (h : ∀ kv ∈ row, kv.1 ∈ allowed) (hk : k ∉ allowed) : rowGet row k = none := by
  unfold rowGet
  cases hf : row.find? (fun p => p.1 = k) with
  | none => rfl
  | some p =>
    have hm := List.mem_of_find?_eq_some hf
    have hp := List.find?_some hf
    simp only [decide_eq_true_eq] at hp
    exact absurd (hp ▸ h p hm) hk

/-- C10: the columns query's SELECT list produces only the seven aliases of
`columnsQuerySelectAliases` — none of is_identity, is_computed,
is_rowguidcol or default_definition — so every ColumnMetadata built from
one of its rows has isIdentity, isComputed and isRowGuid false (the boolean
coercion of an absent cell) and no defaultExpression; and `populateColumns`
builds its columns exactly this way from the query result rows. -/
theorem C10_columns_fixed_fields :
    ("is_identity" ∉ columnsQuerySelectAliases ∧
     "is_computed" ∉ columnsQuerySelectAliases ∧
     "is_rowguidcol" ∉ columnsQuerySelectAliases ∧
     "default_definition" ∉ columnsQuerySelectAliases) ∧
    (∀ row : Row, (∀ kv ∈ row, kv.1 ∈ columnsQuerySelectAliases) →
      (buildColumnMetadata row).isIdentity = false ∧
      (buildColumnMetadata row).isComputed = false ∧
      (buildColumnMetadata row).isRowGuid = false ∧
      (buildColumnMetadata row).defaultExpression = none) ∧
    (∀ (loader : Loader) (conn : Option MssqlConnection) (table : TableMetadata)
        (options : Option String) (result : QueryResult),
      loader (columnsForObjectQuery table.schema table.name
        (effectiveDb conn options)) = some result →
      (populateColumns loader conn table options).1.columns =
        some (result.rows.map buildColumnMetadata)) := by
  refine ⟨by decide, ?_, ?_⟩
  · intro row h
    have h1 : rowGet row "is_identity" = none :=
      rowGet_eq_none_of_keys row _ _ h (by decide)
    have h2 : rowGet row "is_computed" = none :=
      rowGet_eq_none_of_keys row _ _ h (by decide)
    have h3 : rowGet row "is_rowguidcol" = none :=
      rowGet_eq_none_of_keys row _ _ h (by decide)
    have h4 : rowGet row "default_definition" = none :=
      rowGet_eq_none_of_keys row _ _ h (by decide)
    unfold buildColumnMetadata
    simp [h1, h2, h3, h4, toBoolean]
  · intro loader conn table options result hres
    unfold populateColumns
    simp only [hres]

/-! ## Claim C9 — on-demand loads always produce kind TABLE -/

theorem populateColumns_type (loader : Loader) (conn : Option MssqlConnection)
    (table : TableMetadata) (options : Option String) :
    (populateColumns loader conn table options).1.type = table.type := by
  unfold populateColumns
  dsimp only
  split <;> rfl


theorem populateDescription_type (loader : Loader) (conn : Option MssqlConnection)
    (table : TableMetadata) (options : Option String) :
    (populateDescription loader conn table options).1.type = table.type := by
  unfold populateDescription
  dsimp only
  split
  · split <;> rfl
  · rfl

theorem loadTableOnDemand_type (loader : Loader) (conn : Option MssqlConnection)
    (schema name : String) (options : Option String) (t : TableMetadata)
    (h : (loadTableOnDemand loader conn schema name options).1 = some t) :
    t.type = TableType.TABLE := by
  unfold loadTableOnDemand at h
  cases conn with
  | none => simp at h
  | some c =>
    simp only at h
    split at h
    · simp at h
    · split at h
      · simp at h
      · simp only [Option.some.injEq] at h
        rw [← h, populateDescription_type, populateColumns_type]

/-- C9: every TableMetadata produced by the on-demand load path (object
absent from the bulk snapshot, or cross-database) has kind TABLE, never
VIEW — `loadTableOnDemand` starts from a literal `type: 'TABLE'` record and
the column/description fills never change it, and the cross-database path
goes through the same load. -/
theorem C9_on_demand_kind_always_table :
    (∀ (loader : Loader) (conn : Option MssqlConnection) (schema name : String)
        (options : Option String) (t : TableMetadata),
      (loadTableOnDemand loader conn schema name options).1 = some t →
      t.type = TableType.TABLE) ∧
    (∀ (loader : Loader) (c : MssqlConnection) (database schema name : String)
        (t : TableMetadata),
      (loadTableCrossDatabase loader c database schema name).1 = some t →
      t.type = TableType.TABLE) := by
  constructor
  · intro loader conn schema name options t h
    exact loadTableOnDemand_type loader conn schema name options t h
  · intro loader c database schema name t h
    unfold loadTableCrossDatabase at h
    exact loadTableOnDemand_type _ _ _ _ _ _ h

/-! ## Claim C4 — cross-database isolation -/

/-- C4: when the requested target database differs (case-insensitively)
from the connection's own default database, `getTable` performs the
one-shot cross-database load: the cache is returned exactly as it was —
the CacheEntry keyed by the connection's own key is neither mutated nor
stored into — and the result and issued queries are those of
`loadTableCrossDatabase` alone, independent of the cache contents, so the
cache is never read either. -/
theorem C4_cross_database_bypasses_cache (loader : Loader) (c : MssqlConnection)
    (cdb db schema name : String) (now : Nat) (cache : Cache)
    (hcdb : c.database = some cdb) (hdb : db ≠ "") (hc : cdb ≠ "")
    (hne : toLowerStr db ≠ toLowerStr cdb) :
    getTable loader (some c) schema name (some db) now cache =
      ((loadTableCrossDatabase loader c db schema name).1, cache,
        (loadTableCrossDatabase loader c db schema name).2) ∧
    (∀ cache2 : Cache,
      (getTable loader (some c) schema name (some db) now cache).1 =
        (getTable loader (some c) schema name (some db) now cache2).1 ∧
      (getTable loader (some c) schema name (some db) now cache).2.2 =
        (getTable loader (some c) schema name (some db) now cache2).2.2) := by
  have hcross : crossDatabaseRequested (some c) (some db) = true := by
    unfold crossDatabaseRequested
    dsimp only
    rw [hcdb]
    simp [hdb, hc, hne]
  constructor
  · unfold getTable
    dsimp only
    rw [hcross]
    simp
  · intro cache2
    unfold getTable
    dsimp only
    rw [hcross]
    simp

def c4WitnessConn : MssqlConnection := { database := some "db1" }

def c4WitnessLoader : Loader := fun _ => none

/-- C4 witness: the theorem applied at a concrete connection, target
database and nonempty cache. -/
theorem C4_cross_database_bypasses_cache_witness :
    (getTable c4WitnessLoader (some c4WitnessConn) "S" "T" (some "db2") 0
        [("k", { timestamp := 7 })] =
      ((loadTableCrossDatabase c4WitnessLoader c4WitnessConn "db2" "S" "T").1,
        [("k", { timestamp := 7 })],
        (loadTableCrossDatabase c4WitnessLoader c4WitnessConn "db2" "S" "T").2)) ∧
    (∀ cache2 : Cache,
      (getTable c4WitnessLoader (some c4WitnessConn) "S" "T" (some "db2") 0
          [("k", { timestamp := 7 })]).1 =
        (getTable c4WitnessLoader (some c4WitnessConn) "S" "T" (some "db2") 0 cache2).1 ∧
      (getTable c4WitnessLoader (some c4WitnessConn) "S" "T" (some "db2") 0
          [("k", { timestamp := 7 })]).2.2 =
        (getTable c4WitnessLoader (some c4WitnessConn) "S" "T" (some "db2") 0 cache2).2.2) :=
  C4_cross_database_bypasses_cache c4WitnessLoader c4WitnessConn "db1" "db2" "S" "T" 0
    [("k", { timestamp := 7 })] rfl (by decide) (by decide) (by decide)

/-! ## Claim C1 — a failed bulk fetch still caches an (empty) entry -/

theorem mapGet_mapSet_self {α : Type} (m : List (String × α)) (k : String) (v : α) :
    mapGet (mapSet m k v) k = some v := by
  induction m with
  | nil => simp [mapGet, mapSet, List.find?]
  | cons p rest ih =>
    by_cases hk : p.1 = k
    · simp [mapSet, hk, mapGet, List.find?]
    · cases p with
      | mk k0 v0 =>
        simp only at hk
        unfold mapSet
        simp only [hk, if_false]
        unfold mapGet at ih ⊢
        simp [List.find?, hk, ih]

/-- C1 counterexample to the claim as stated: with a loader that fails the
bulk fetch, `getTables` does not leave the cache in its pre-call state — an
entry appears under the connection key — and the next `getTables` call for
that key issues no query at all instead of re-attempting the fetch. -/
theorem C1_counterexample :
    (getTables c4WitnessLoader (some { connectionId := some "c1" }) 0 []).2.1 ≠
      ([] : Cache) ∧
    (getTables c4WitnessLoader (some { connectionId := some "c1" }) 0
      (getTables c4WitnessLoader (some { connectionId := some "c1" }) 0 []).2.1).2.2 =
      [] := by
  constructor <;> decide

/-- C1 (amended): if the bulk snapshot fetch fails (the loader returns no
result, including by cancellation), `ensureCache` still caches a CacheEntry
for the key — an empty one (no tables, routines or foreign keys) — after
issuing only the bulk object-list query; `getTables` returns an empty list,
and every subsequent `getTables` call for that key returns an empty list
without issuing any query (no re-attempt) as long as the entry stands;
failures are absorbed, not raised. -/
theorem C1_failed_bulk_fetch_caches_empty_entry (loader : Loader)
    (conn : Option MssqlConnection) (key : String) (now : Nat) (cache : Cache)
    (hkey : getConnectionKey conn = some key)
    (hmiss : mapGet cache key = none)
    (hfail : loader (allObjectsQuery (optDb conn)) = none) :
    (getTables loader conn now cache).1 = [] ∧
    (getTables loader conn now cache).2.1 =
      mapSet cache key { tables := [], routines := [], foreignKeys := [], timestamp := now } ∧
    (getTables loader conn now cache).2.2 = [allObjectsQuery (optDb conn)] ∧
    (∀ now2 : Nat,
      getTables loader conn now2 (getTables loader conn now cache).2.1 =
        ([], (getTables loader conn now cache).2.1, [])) := by
  have hens : ensureCache loader conn now cache =
      (some { tables := [], routines := [], foreignKeys := [], timestamp := now },
        mapSet cache key { tables := [], routines := [], foreignKeys := [], timestamp := now },
        [allObjectsQuery (optDb conn)]) := by
    unfold ensureCache
    rw [hkey]
    dsimp only
    rw [hmiss]
    dsimp only
    rw [hfail]
  have hget : getTables loader conn now cache =
      ([], mapSet cache key { tables := [], routines := [], foreignKeys := [], timestamp := now },
        [allObjectsQuery (optDb conn)]) := by
    unfold getTables
    rw [hens]
    simp
  refine ⟨by rw [hget], by rw [hget], by rw [hget], ?_⟩
  intro now2
  rw [hget]
  have hens2 : ensureCache loader conn now2
      (mapSet cache key { tables := [], routines := [], foreignKeys := [], timestamp := now }) =
      (some { tables := [], routines := [], foreignKeys := [], timestamp := now },
        mapSet cache key { tables := [], routines := [], foreignKeys := [], timestamp := now },
        []) := by
    unfold ensureCache
    rw [hkey]
    dsimp only
    rw [mapGet_mapSet_self]
  unfold getTables
  rw [hens2]
  simp

/-- C1 witness: the amended theorem applied at a concrete connection and a
failing loader. -/
theorem C1_failed_bulk_fetch_witness :
    (getTables c4WitnessLoader (some { connectionId := some "c1" }) 0 []).1 = [] ∧
    (getTables c4WitnessLoader (some { connectionId := some "c1" }) 0 []).2.1 =
      mapSet [] "c1" { tables := [], routines := [], foreignKeys := [], timestamp := 0 } ∧
    (getTables c4WitnessLoader (some { connectionId := some "c1" }) 0 []).2.2 =
      [allObjectsQuery (optDb (some { connectionId := some "c1" }))] ∧
    (∀ now2 : Nat,
      getTables c4WitnessLoader (some { connectionId := some "c1" }) now2
        (getTables c4WitnessLoader (some { connectionId := some "c1" }) 0 []).2.1 =
        ([], (getTables c4WitnessLoader (some { connectionId := some "c1" }) 0 []).2.1, [])) :=
  C1_failed_bulk_fetch_caches_empty_entry c4WitnessLoader
    (some { connectionId := some "c1" }) "c1" 0 [] (by decide) (by decide) rfl

/-! ## Claim C5 — getTable is idempotent with a deterministic loader

The proof-side decomposition: `fillStep1`/`fillResult`/`fillDelta`/`fillCache`
name the table value, issued queries and cache after the two lazy fill steps
of `getTableFill`, so that running `getTable` twice can be compared. -/

theorem populateColumns_fields (loader : Loader) (conn : Option MssqlConnection)
    (table : TableMetadata) (options : Option String) :
    (populateColumns loader conn table options).1.schema = table.schema ∧
    (populateColumns loader conn table options).1.name = table.name ∧
    (populateColumns loader conn table options).1.description = table.description := by
  unfold populateColumns
  dsimp only
  split <;> simp

theorem populateDescription_fields (loader : Loader) (conn : Option MssqlConnection)
    (table : TableMetadata) (options : Option String) :
    (populateDescription loader conn table options).1.schema = table.schema ∧
    (populateDescription loader conn table options).1.name = table.name ∧
    (populateDescription loader conn table options).1.columns = table.columns := by
  unfold populateDescription
  dsimp only
  split
  · split <;> simp
  · simp

theorem populateColumns_log (loader : Loader) (conn : Option MssqlConnection)
    (table : TableMetadata) (options : Option String) :
    (populateColumns loader conn table options).2 =
      [columnsForObjectQuery table.schema table.name (effectiveDb conn options)] := by
  unfold populateColumns
  dsimp only
  split <;> rfl

theorem populateDescription_log (loader : Loader) (conn : Option MssqlConnection)
    (table : TableMetadata) (options : Option String) :
    (populateDescription loader conn table options).2 =
      [extendedPropertyDescriptionQuery table.schema table.name (effectiveDb conn options)] := by
  unfold populateDescription
  dsimp only
  split <;> rfl

theorem populateColumns_fail (loader : Loader) (conn : Option MssqlConnection)
    (table : TableMetadata) (options : Option String)
    (h : loader (columnsForObjectQuery table.schema table.name (effectiveDb conn options)) = none) :
    (populateColumns loader conn table options).1 = table := by
  unfold populateColumns
  dsimp only
  rw [h]

theorem populateColumns_columns_none (loader : Loader) (conn : Option MssqlConnection)
    (table : TableMetadata) (options : Option String)
    (h : (populateColumns loader conn table options).1.columns = none) :
    loader (columnsForObjectQuery table.schema table.name (effectiveDb conn options)) = none ∧
      (populateColumns loader conn table options).1 = table := by
  cases hl : loader (columnsForObjectQuery table.schema table.name (effectiveDb conn options)) with
  | none => exact ⟨rfl, populateColumns_fail loader conn table options hl⟩
  | some result =>
    unfold populateColumns at h
    dsimp only at h
    rw [hl] at h
    simp at h

theorem populateDescription_result (loader : Loader) (conn : Option MssqlConnection)
    (table : TableMetadata) (options : Option String) :
    (populateDescription loader conn table options).1 =
      (match loaderRunScalar loader (extendedPropertyDescriptionQuery table.schema
          table.name (effectiveDb conn options)) with
       | some v => if jsTruthy v then { table with description := some (jsToString v) } else table
       | none => table) := by
  unfold populateDescription
  dsimp only
  split <;> rfl

theorem tableSetDescription_self (t : TableMetadata) (d : Option String)
    (h : t.description = d) : { t with description := d } = t := by
  cases t
  simp only at h
  rw [← h]

/-- The columns fill step of `getTableFill`, as a value. -/
def fillStep1 (loader : Loader) (conn : Option MssqlConnection)
    (options : Option String) (t0 : TableMetadata) : TableMetadata :=
  if t0.columns.isNone then (populateColumns loader conn t0 options).1 else t0

/-- The table after both fill steps of `getTableFill`. -/
def fillResult (loader : Loader) (conn : Option MssqlConnection)
    (options : Option String) (t0 : TableMetadata) : TableMetadata :=
  let t1 := fillStep1 loader conn options t0
  if descFalsy t1.description then (populateDescription loader conn t1 options).1 else t1

/-- The queries issued by the fill steps of `getTableFill`. -/
def fillDelta (loader : Loader) (conn : Option MssqlConnection)
    (options : Option String) (t0 : TableMetadata) : List String :=
  (if t0.columns.isNone then (populateColumns loader conn t0 options).2 else []) ++
  (let t1 := fillStep1 loader conn options t0
   if descFalsy t1.description then (populateDescription loader conn t1 options).2 else [])

/-- The cache after the write-throughs of `getTableFill`. -/
def fillCache (loader : Loader) (conn : Option MssqlConnection) (key ckey : String)
    (t0 : TableMetadata) (entry : CacheEntry) (options : Option String)
    (cache : Cache) : Cache :=
  let t1 := fillStep1 loader conn options t0
  let s1 : CacheEntry × Cache :=
    if t0.columns.isNone then
      let e1 : CacheEntry := { entry with tables := mapSet entry.tables key t1 }
      (e1, mapSet cache ckey e1)
    else (entry, cache)
  if descFalsy t1.description then
    let t2 := (populateDescription loader conn t1 options).1
    let e2 : CacheEntry := { s1.1 with tables := mapSet s1.1.tables key t2 }
    mapSet s1.2 ckey e2
  else s1.2

theorem getTableFill_eq (loader : Loader) (conn : Option MssqlConnection)
    (key ckey : String) (t0 : TableMetadata) (entry : CacheEntry)
    (options : Option String) (cache : Cache) (log : List String) :
    getTableFill loader conn key ckey t0 entry options cache log =
      (some (fillResult loader conn options t0),
       fillCache loader conn key ckey t0 entry options cache,
       log ++ fillDelta loader conn options t0) := by
  unfold getTableFill fillResult fillCache fillDelta fillStep1
  by_cases hcols : t0.columns.isNone
  · simp only [hcols, if_true]
    by_cases hdesc : descFalsy (populateColumns loader conn t0 options).1.description
    · simp [hdesc]
    · simp [hdesc]
  · simp only [hcols, if_false]
    by_cases hdesc : descFalsy t0.description
    · simp [hdesc]
    · simp [hdesc]


theorem fillCache_spec (loader : Loader) (conn : Option MssqlConnection)
    (key ckey : String) (t0 : TableMetadata) (entry : CacheEntry)
    (options : Option String) (cache : Cache)
    (hce : mapGet cache ckey = some entry)
    (hte : mapGet entry.tables key = some t0) :
    ∃ eF : CacheEntry,
      mapGet (fillCache loader conn key ckey t0 entry options cache) ckey = some eF ∧
      mapGet eF.tables key = some (fillResult loader conn options t0) := by
  unfold fillCache fillResult fillStep1
  dsimp only
  by_cases hcols : t0.columns.isNone
  · rw [if_pos hcols, if_pos hcols]
    by_cases hdesc : descFalsy (populateColumns loader conn t0 options).1.description
    · rw [if_pos hdesc, if_pos hdesc]
      exact ⟨_, mapGet_mapSet_self _ _ _, mapGet_mapSet_self _ _ _⟩
    · rw [if_neg hdesc, if_neg hdesc]
      exact ⟨_, mapGet_mapSet_self _ _ _, mapGet_mapSet_self _ _ _⟩
  · rw [if_neg hcols, if_neg hcols]
    by_cases hdesc : descFalsy t0.description
    · rw [if_pos hdesc, if_pos hdesc]
      exact ⟨_, mapGet_mapSet_self _ _ _, mapGet_mapSet_self _ _ _⟩
    · rw [if_neg hdesc, if_neg hdesc]
      exact ⟨entry, hce, hte⟩

theorem fillResult_columns (loader : Loader) (conn : Option MssqlConnection)
    (options : Option String) (t0 : TableMetadata) :
    (fillResult loader conn options t0).columns = (fillStep1 loader conn options t0).columns := by
  unfold fillResult
  dsimp only
  split
  · exact (populateDescription_fields loader conn _ options).2.2
  · rfl

theorem fillResult_schema (loader : Loader) (conn : Option MssqlConnection)
    (options : Option String) (t0 : TableMetadata) :
    (fillResult loader conn options t0).schema = (fillStep1 loader conn options t0).schema := by
  unfold fillResult
  dsimp only
  split
  · exact (populateDescription_fields loader conn _ options).1
  · rfl

theorem fillResult_name (loader : Loader) (conn : Option MssqlConnection)
    (options : Option String) (t0 : TableMetadata) :
    (fillResult loader conn options t0).name = (fillStep1 loader conn options t0).name := by
  unfold fillResult
  dsimp only
  split
  · exact (populateDescription_fields loader conn _ options).2.1
  · rfl

theorem fillStep1_of_result (loader : Loader) (conn : Option MssqlConnection)
    (options : Option String) (t0 : TableMetadata) :
    fillStep1 loader conn options (fillResult loader conn options t0) =
      fillResult loader conn options t0 := by
  by_cases hc : (fillResult loader conn options t0).columns.isNone
  · -- the stored table still has no columns: the columns fetch failed, and
    -- re-running it against the same loader fails again, changing nothing
    have hc1 : (fillStep1 loader conn options t0).columns = none := by
      rw [← fillResult_columns]
      exact Option.isNone_iff_eq_none.mp hc
    have ht10 : fillStep1 loader conn options t0 = t0 ∧
        loader (columnsForObjectQuery t0.schema t0.name (effectiveDb conn options)) = none := by
      unfold fillStep1 at hc1 ⊢
      by_cases h0 : t0.columns.isNone
      · rw [if_pos h0] at hc1 ⊢
        have := populateColumns_columns_none loader conn t0 options hc1
        exact ⟨this.2, this.1⟩
      · rw [if_neg h0] at hc1
        exact absurd (Option.isNone_iff_eq_none.mpr hc1) h0
    unfold fillStep1
    rw [if_pos hc]
    apply populateColumns_fail
    rw [fillResult_schema, fillResult_name, ht10.1]
    exact ht10.2
  · unfold fillStep1
    rw [if_neg hc]

theorem fillResult_def2 (loader : Loader) (conn : Option MssqlConnection)
    (options : Option String) (t : TableMetadata) :
    fillResult loader conn options t =
      (if descFalsy (fillStep1 loader conn options t).description then
        (populateDescription loader conn (fillStep1 loader conn options t) options).1
       else fillStep1 loader conn options t) := rfl

theorem fillResult_idem (loader : Loader) (conn : Option MssqlConnection)
    (options : Option String) (t0 : TableMetadata) :
    fillResult loader conn options (fillResult loader conn options t0) =
      fillResult loader conn options t0 := by
  rw [fillResult_def2 loader conn options (fillResult loader conn options t0),
    fillStep1_of_result]
  by_cases hd : descFalsy (fillResult loader conn options t0).description
  · rw [if_pos hd]
    have hq : extendedPropertyDescriptionQuery (fillResult loader conn options t0).schema
        (fillResult loader conn options t0).name (effectiveDb conn options) =
        extendedPropertyDescriptionQuery (fillStep1 loader conn options t0).schema
          (fillStep1 loader conn options t0).name (effectiveDb conn options) := by
      rw [fillResult_schema, fillResult_name]
    -- the description is still falsy after the first pass, so the first
    -- pass's scalar lookup cannot have attached a truthy value
    by_cases hd1 : descFalsy (fillStep1 loader conn options t0).description
    · have ht2 : fillResult loader conn options t0 =
          (populateDescription loader conn (fillStep1 loader conn options t0) options).1 := by
        rw [fillResult_def2, if_pos hd1]
      cases hs : loaderRunScalar loader (extendedPropertyDescriptionQuery
          (fillStep1 loader conn options t0).schema
          (fillStep1 loader conn options t0).name (effectiveDb conn options)) with
      | none =>
        have ht21 : fillResult loader conn options t0 = fillStep1 loader conn options t0 := by
          rw [ht2, populateDescription_result, hs]
        rw [populateDescription_result, hq, hs]
      | some v =>
        by_cases hv : jsTruthy v
        · have ht21 : fillResult loader conn options t0 =
              { fillStep1 loader conn options t0 with description := some (jsToString v) } := by
            rw [ht2, populateDescription_result, hs]
            simp [hv]
          rw [populateDescription_result, hq, hs]
          dsimp only
          rw [if_pos hv]
          apply tableSetDescription_self
          rw [ht21]
        · have ht21 : fillResult loader conn options t0 = fillStep1 loader conn options t0 := by
            rw [ht2, populateDescription_result, hs]
            simp [hv]
          rw [populateDescription_result, hq, hs]
          dsimp only
          rw [if_neg hv]
    · have ht2 : fillResult loader conn options t0 = fillStep1 loader conn options t0 := by
        rw [fillResult_def2, if_neg hd1]
      rw [ht2] at hd
      exact absurd hd hd1
  · rw [if_neg hd]

theorem ensureCache_key (loader : Loader) (conn : Option MssqlConnection)
    (now : Nat) (cache : Cache) (key : String)
    (hkey : getConnectionKey conn = some key) :
    ∃ (entry : CacheEntry) (c1 : Cache) (l1 : List String),
      ensureCache loader conn now cache = (some entry, c1, l1) ∧
      mapGet c1 key = some entry := by
  unfold ensureCache
  rw [hkey]
  dsimp only
  cases hm : mapGet cache key with
  | some cached => exact ⟨cached, cache, [], rfl, hm⟩
  | none =>
    cases hl : loader (allObjectsQuery (optDb conn)) with
    | none => exact ⟨_, _, _, rfl, mapGet_mapSet_self _ _ _⟩
    | some result => exact ⟨_, _, _, rfl, mapGet_mapSet_self _ _ _⟩

theorem ensureCache_cached (loader : Loader) (conn : Option MssqlConnection)
    (now : Nat) (cache : Cache) (key : String) (entry : CacheEntry)
    (hkey : getConnectionKey conn = some key)
    (hm : mapGet cache key = some entry) :
    ensureCache loader conn now cache = (some entry, cache, []) := by
  unfold ensureCache
  rw [hkey]
  dsimp only
  rw [hm]

theorem getTable_no_options (loader : Loader) (conn : Option MssqlConnection)
    (schema name : String) (now : Nat) (cache : Cache) :
    getTable loader conn schema name none now cache =
      getTableSameDb loader conn schema name none now cache := by
  cases conn <;> rfl

set_option maxRecDepth 8192 in
theorem columnsQuery_ne_descQuery (s1 n1 : String) (d1 : Option String)
    (s2 n2 : String) (d2 : Option String) :
    columnsForObjectQuery s1 n1 d1 ≠ extendedPropertyDescriptionQuery s2 n2 d2 := by
  intro h
  have h1 : ("\nSELECT\n".data) <+: (columnsForObjectQuery s1 n1 d1).data := by
    have hfull : ("\nSELECT\n    c.name AS column_name,\n    t.NAME AS data_type,\n    c.max_length AS max_length,\n    c.precision,\n    c.scale,\n    c.is_nullable,\n    ep.value AS description\nFROM ").data <+: (columnsForObjectQuery s1 n1 d1).data := by
      unfold columnsForObjectQuery
      dsimp only
      simp only [String.data_append, List.append_assoc]
      exact List.prefix_append _ _
    exact List.IsPrefix.trans (by decide) hfull
  have h2 : ("\nSELECT ".data) <+: (extendedPropertyDescriptionQuery s2 n2 d2).data := by
    have hfull : ("\nSELECT CAST(ep.value AS NVARCHAR(MAX)) AS description\nFROM ").data <+:
        (extendedPropertyDescriptionQuery s2 n2 d2).data := by
      unfold extendedPropertyDescriptionQuery
      dsimp only
      simp only [String.data_append, List.append_assoc]
      exact List.prefix_append _ _
    exact List.IsPrefix.trans (by decide) hfull
  rw [h] at h1
  rcases List.prefix_or_prefix_of_prefix h1 h2 with hp | hp
  · exact absurd hp (by decide)
  · exact absurd hp (by decide)

theorem second_call_after_fill (loader : Loader) (conn : Option MssqlConnection)
    (schema name key : String) (now2 : Nat) (t0 : TableMetadata)
    (entry : CacheEntry) (cache : Cache)
    (hkey : getConnectionKey conn = some key)
    (hce : mapGet cache key = some entry)
    (hte : mapGet entry.tables (toObjectKey schema name) = some t0) :
    (getTableSameDb loader conn schema name none now2
        (fillCache loader conn (toObjectKey schema name) key t0 entry none cache)).1 =
      some (fillResult loader conn none t0) ∧
    (getTableSameDb loader conn schema name none now2
        (fillCache loader conn (toObjectKey schema name) key t0 entry none cache)).2.2 =
      fillDelta loader conn none (fillResult loader conn none t0) := by
  obtain ⟨eF, hgF, htF⟩ :=
    fillCache_spec loader conn (toObjectKey schema name) key t0 entry none cache hce hte
  have hens := ensureCache_cached loader conn now2 _ key eF hkey hgF
  unfold getTableSameDb
  rw [hens]
  dsimp only
  simp only [hkey, Option.getD_some]
  rw [htF]
  dsimp only
  rw [getTableFill_eq, fillResult_idem]
  exact ⟨rfl, by simp⟩

theorem fillDelta_eval (loader : Loader) (conn : Option MssqlConnection)
    (t : TableMetadata) (hstep : fillStep1 loader conn none t = t) :
    fillDelta loader conn none t =
      (if t.columns.isNone then [columnsForObjectQuery t.schema t.name (optDb conn)]
       else []) ++
      (if descFalsy t.description then
        [extendedPropertyDescriptionQuery t.schema t.name (optDb conn)]
       else []) := by
  unfold fillDelta
  dsimp only
  rw [hstep]
  congr 1
  · by_cases hc : t.columns.isNone
    · rw [if_pos hc, if_pos hc, populateColumns_log]
      rfl
    · rw [if_neg hc, if_neg hc]
  · by_cases hd : descFalsy t.description
    · rw [if_pos hd, if_pos hd, populateDescription_log]
      rfl
    · rw [if_neg hd, if_neg hd]

theorem fillDelta_no_refetch (loader : Loader) (conn : Option MssqlConnection)
    (t : TableMetadata) (hstep : fillStep1 loader conn none t = t) :
    (t.columns.isSome →
      columnsForObjectQuery t.schema t.name (optDb conn) ∉ fillDelta loader conn none t) ∧
    (∀ d : String, t.description = some d → d ≠ "" →
      extendedPropertyDescriptionQuery t.schema t.name (optDb conn) ∉
        fillDelta loader conn none t) := by
  rw [fillDelta_eval loader conn t hstep]
  constructor
  · intro hcols
    have hnone : t.columns.isNone = false := by
      cases hc2 : t.columns with
      | none => rw [hc2] at hcols; simp at hcols
      | some c => simp
    rw [hnone]
    simp only [Bool.false_eq_true, if_false, List.nil_append]
    by_cases hd : descFalsy t.description
    · rw [if_pos hd]
      simp only [List.mem_singleton]
      exact columnsQuery_ne_descQuery t.schema t.name (optDb conn) t.schema t.name (optDb conn)
    · rw [if_neg hd]
      simp
  · intro d hdesc hne
    have hfalse : descFalsy t.description = false := by
      rw [hdesc]
      simp [descFalsy, hne]
    rw [hfalse]
    simp only [Bool.false_eq_true, if_false, List.append_nil]
    by_cases hc : t.columns.isNone
    · rw [if_pos hc]
      simp only [List.mem_singleton]
      intro h
      exact columnsQuery_ne_descQuery t.schema t.name (optDb conn) t.schema t.name
        (optDb conn) h.symm
    · rw [if_neg hc]
      simp

/-- C5: with the (deterministic) loader, calling `getTable` twice in
sequence for the same object and connection key, with no intervening
invalidation, yields identical results — the same `TableMetadata`
field-for-field, or absence both times — and the second call issues no
columns query when the first call's result already carries columns, and no
description query when it already carries a nonempty description. -/
theorem C5_get_table_idempotent (loader : Loader) (conn : Option MssqlConnection)
    (key schema name : String) (now1 now2 : Nat) (cache : Cache)
    (hkey : getConnectionKey conn = some key) :
    (getTable loader conn schema name none now2
        (getTable loader conn schema name none now1 cache).2.1).1 =
      (getTable loader conn schema name none now1 cache).1 ∧
    (∀ t : TableMetadata,
      (getTable loader conn schema name none now1 cache).1 = some t →
      (t.columns.isSome →
        columnsForObjectQuery t.schema t.name (optDb conn) ∉
          (getTable loader conn schema name none now2
            (getTable loader conn schema name none now1 cache).2.1).2.2) ∧
      (∀ d : String, t.description = some d → d ≠ "" →
        extendedPropertyDescriptionQuery t.schema t.name (optDb conn) ∉
          (getTable loader conn schema name none now2
            (getTable loader conn schema name none now1 cache).2.1).2.2)) := by
  simp only [getTable_no_options]
  obtain ⟨entry, c1, l1, hec, hgc1⟩ := ensureCache_key loader conn now1 cache key hkey
  cases hm0 : mapGet entry.tables (toObjectKey schema name) with
  | some t0 =>
    have hr1 : getTableSameDb loader conn schema name none now1 cache =
        (some (fillResult loader conn none t0),
         fillCache loader conn (toObjectKey schema name) key t0 entry none c1,
         l1 ++ fillDelta loader conn none t0) := by
      unfold getTableSameDb
      rw [hec]
      dsimp only
      simp only [hkey, Option.getD_some]
      rw [hm0]
      dsimp only
      rw [getTableFill_eq]
    have h2 := second_call_after_fill loader conn schema name key now2 t0 entry c1
      hkey hgc1 hm0
    rw [hr1]
    dsimp only
    rw [h2.1, h2.2]
    refine ⟨rfl, ?_⟩
    intro t ht
    simp only [Option.some.injEq] at ht
    have hstep := fillStep1_of_result loader conn none t0
    rw [ht] at hstep ⊢
    exact fillDelta_no_refetch loader conn t hstep
  | none =>
    cases ho : (loadTableOnDemand loader conn schema name none).1 with
    | none =>
      have hr1 : getTableSameDb loader conn schema name none now1 cache =
          (none, c1, l1 ++ (loadTableOnDemand loader conn schema name none).2) := by
        unfold getTableSameDb
        rw [hec]
        dsimp only
        simp only [hkey, Option.getD_some]
        rw [hm0]
        dsimp only
        rw [ho]
      have hens2 := ensureCache_cached loader conn now2 c1 key entry hkey hgc1
      have hr2 : getTableSameDb loader conn schema name none now2 c1 =
          (none, c1, [] ++ (loadTableOnDemand loader conn schema name none).2) := by
        unfold getTableSameDb
        rw [hens2]
        dsimp only
        simp only [hkey, Option.getD_some]
        rw [hm0]
        dsimp only
        rw [ho]
      rw [hr1]
      dsimp only
      rw [hr2]
      exact ⟨rfl, fun t ht => absurd ht (by simp)⟩
    | some tOD =>
      have hr1 : getTableSameDb loader conn schema name none now1 cache =
          (some (fillResult loader conn none tOD),
           fillCache loader conn (toObjectKey schema name) key tOD
             { entry with tables := mapSet entry.tables (toObjectKey schema name) tOD }
             none
             (mapSet c1 key
               { entry with tables := mapSet entry.tables (toObjectKey schema name) tOD }),
           (l1 ++ (loadTableOnDemand loader conn schema name none).2) ++
             fillDelta loader conn none tOD) := by
        unfold getTableSameDb
        rw [hec]
        dsimp only
        simp only [hkey, Option.getD_some]
        rw [hm0]
        dsimp only
        rw [ho]
        dsimp only
        rw [getTableFill_eq]
      have h2 := second_call_after_fill loader conn schema name key now2 tOD
        { entry with tables := mapSet entry.tables (toObjectKey schema name) tOD }
        (mapSet c1 key
          { entry with tables := mapSet entry.tables (toObjectKey schema name) tOD })
        hkey (mapGet_mapSet_self _ _ _) (mapGet_mapSet_self _ _ _)
      rw [hr1]
      dsimp only
      rw [h2.1, h2.2]
      refine ⟨rfl, ?_⟩
      intro t ht
      simp only [Option.some.injEq] at ht
      have hstep := fillStep1_of_result loader conn none tOD
      rw [ht] at hstep ⊢
      exact fillDelta_no_refetch loader conn t hstep

/-- C5 witness: the idempotence theorem applied at a concrete connection,
loader and empty cache. -/
theorem C5_get_table_idempotent_witness :
    (getTable c4WitnessLoader (some { connectionId := some "c1" }) "S" "T" none 1
        (getTable c4WitnessLoader (some { connectionId := some "c1" }) "S" "T" none 0 []).2.1).1 =
      (getTable c4WitnessLoader (some { connectionId := some "c1" }) "S" "T" none 0 []).1 ∧
    (∀ t : TableMetadata,
      (getTable c4WitnessLoader (some { connectionId := some "c1" }) "S" "T" none 0 []).1 =
        some t →
      (t.columns.isSome →
        columnsForObjectQuery t.schema t.name
            (optDb (some { connectionId := some "c1" })) ∉
          (getTable c4WitnessLoader (some { connectionId := some "c1" }) "S" "T" none 1
            (getTable c4WitnessLoader (some { connectionId := some "c1" }) "S" "T" none 0
              []).2.1).2.2) ∧
      (∀ d : String, t.description = some d → d ≠ "" →
        extendedPropertyDescriptionQuery t.schema t.name
            (optDb (some { connectionId := some "c1" })) ∉
          (getTable c4WitnessLoader (some { connectionId := some "c1" }) "S" "T" none 1
            (getTable c4WitnessLoader (some { connectionId := some "c1" }) "S" "T" none 0
              []).2.1).2.2)) :=
  C5_get_table_idempotent c4WitnessLoader (some { connectionId := some "c1" })
    "c1" "S" "T" 0 1 [] (by decide)

/-- C6 witness: the right-to-left mapping theorem at a concrete three-part
identifier. -/
theorem C6_parse_maps_right_to_left_witness :
    parseQualifiedIdentifier "db.dbo.Orders" = claimParseRightToLeft "db.dbo.Orders" ∧
    (parseQualifiedIdentifier "db.dbo.Orders").object ≠ some "" ∧
    (parseQualifiedIdentifier "db.dbo.Orders").schema ≠ some "" ∧
    (parseQualifiedIdentifier "db.dbo.Orders").database ≠ some "" :=
  C6_parse_maps_right_to_left "db.dbo.Orders"

/-- A loader whose every query returns one row with one column, making the
on-demand load succeed. -/
def c9WitnessLoader : Loader := fun _ =>
  some { columns := ["column_name"], rows := [[("column_name", JsValue.jstr "id")]] }

/-- C9 witness: a concrete successful on-demand load, whose result the
theorem shows to be of kind TABLE. -/
theorem C9_on_demand_kind_always_table_witness :
    ((loadTableOnDemand c9WitnessLoader (some { connectionId := some "c1" }) "S" "T"
        none).1.getD { schema := "x", name := "x", type := .VIEW }).type =
      TableType.TABLE :=
  C9_on_demand_kind_always_table.1 c9WitnessLoader
    (some { connectionId := some "c1" }) "S" "T" none _ (by decide)

/-- C10 witness: the fixed-field theorem at a concrete row of the columns
query's shape. -/
theorem C10_columns_fixed_fields_witness :
    (buildColumnMetadata [("column_name", JsValue.jstr "id"),
        ("data_type", JsValue.jstr "int"), ("is_nullable", JsValue.jnum 1)]).isIdentity =
      false ∧
    (buildColumnMetadata [("column_name", JsValue.jstr "id"),
        ("data_type", JsValue.jstr "int"), ("is_nullable", JsValue.jnum 1)]).isComputed =
      false ∧
    (buildColumnMetadata [("column_name", JsValue.jstr "id"),
        ("data_type", JsValue.jstr "int"), ("is_nullable", JsValue.jnum 1)]).isRowGuid =
      false ∧
    (buildColumnMetadata [("column_name", JsValue.jstr "id"),
        ("data_type", JsValue.jstr "int"), ("is_nullable", JsValue.jnum 1)]).defaultExpression =
      none :=
  C10_columns_fixed_fields.2.1
    [("column_name", JsValue.jstr "id"), ("data_type", JsValue.jstr "int"),
     ("is_nullable", JsValue.jnum 1)] (by decide)
